import Mathlib

/-!
Verification of the listing extraction & enrichment pipeline of the
mega-directory crawler (src/apps/crawler).  Strings are modelled as lists of
characters; Python dictionaries as insertion-ordered association lists;
fallible code returns `Except`.  External collaborators (the HTTP session,
the regex engine, the BeautifulSoup DOM and the LLM client) are modelled as
abstract functions supplied as parameters, exactly at the call boundaries the
source uses them.
-/

namespace MegaDirectory

/-- Python strings, modelled as lists of characters. -/
abbrev Str := List Char

/-- ASCII lowercase letter or digit: the characters the slug regex
`[^a-z0-9]+` leaves untouched.  Code points 97–122 are `a`–`z`,
48–57 are `0`–`9`. -/
def isSlugChar (c : Char) : Bool :=
  (97 ≤ c.toNat && c.toNat ≤ 122) || (48 ≤ c.toNat && c.toNat ≤ 57)

/-- `str.lower` on a single character: ASCII uppercase (code points 65–90,
`A`–`Z`) shifts down by 32; everything else is left alone.  This is the
ASCII fragment of Python `str.lower`, which is all the slug pipeline
distinguishes: any character it does not map into `[a-z0-9]` is collapsed
into a hyphen regardless. -/
def lowerChar (c : Char) : Char :=
  if 65 ≤ c.toNat && c.toNat ≤ 90 then Char.ofNat (c.toNat + 32) else c

/-- `str.lower` over a whole string. -/
def pyLower (s : Str) : Str := s.map lowerChar

/-- `MAX_SLUG_LENGTH` from crawler.py / text_import.py. -/
def MAX_SLUG_LENGTH : Nat := 80

/-- `_SLUG_INVALID_CHARS.sub("-", s)`: collapse every maximal run of
characters outside `[a-z0-9]` into a single hyphen.  The Boolean flag records
whether we are inside an invalid run that has already emitted its hyphen. -/
def subInvalid : Bool → Str → Str
  | _, [] => []
  | prevInv, c :: rest =>
    if isSlugChar c then c :: subInvalid false rest
    else if prevInv then subInvalid true rest
    else '-' :: subInvalid true rest

/-- `str.strip("-")` from the left: drop leading hyphens. -/
def lstripHyphens (s : Str) : Str := s.dropWhile (fun c => c = '-')

/-- `str.rstrip("-")`: drop trailing hyphens. -/
def rstripHyphens : Str → Str
  | [] => []
  | c :: rest =>
    let r := rstripHyphens rest
    if r = [] ∧ c = '-' then [] else c :: r

/-- `str.strip("-")`: drop hyphens from both ends. -/
def stripHyphens (s : Str) : Str := rstripHyphens (lstripHyphens s)

/-- `slugify` from text_import.py (line 406) and `Crawler._slugify` from
crawler.py (line 973): lowercase, collapse runs of non-alphanumerics to a
single hyphen, strip hyphens at both ends, and cap at `MAX_SLUG_LENGTH`
characters, stripping any hyphen the cut leaves at the end. -/
def slugify (s : Str) : Str :=
  let normalized := stripHyphens (subInvalid false (pyLower s))
  if MAX_SLUG_LENGTH ≠ 0 ∧ MAX_SLUG_LENGTH < normalized.length then
    rstripHyphens (normalized.take MAX_SLUG_LENGTH)
  else normalized

/-! Shape invariants of slug strings. -/

/-- Every character of the string is in the slug output class `[a-z0-9-]`. -/
def allSlugOrHyphen (s : Str) : Prop := ∀ c ∈ s, isSlugChar c ∨ c = '-'

/-- An adjacent pair of characters is acceptable unless both are hyphens. -/
def okPair (a b : Char) : Bool := !(a = '-' && b = '-')

/-- No two adjacent hyphens anywhere in the string. -/
def noDoubleHyphen : Str → Bool
  | a :: b :: rest => okPair a b && noDoubleHyphen (b :: rest)
  | _ => true

/-- The string does not start with a hyphen. -/
def headNotHyphen : Str → Bool
  | [] => true
  | c :: _ => !(c = '-')

/-- The string does not end with a hyphen. -/
def lastNotHyphen : Str → Bool
  | [] => true
  | [c] => !(c = '-')
  | _ :: c :: rest => lastNotHyphen (c :: rest)

/-! Slug strings are fixed points of every stage of `slugify`. -/

/-- The bundle of shape facts produced by `slugify`. -/
def goodSlug (t : Str) : Prop :=
  allSlugOrHyphen t ∧ noDoubleHyphen t = true ∧ headNotHyphen t = true ∧
    lastNotHyphen t = true ∧ t.length ≤ MAX_SLUG_LENGTH

/-! Python values, truthiness and dictionaries. -/

/-- A Python value, as far as the crawler configuration distinguishes them:
`None`, strings, ints, floats, bools, lists and dicts. -/
inductive Val where
  | none
  | str (s : Str)
  | int (n : ℤ)
  | float (q : ℚ)
  | bool (b : Bool)
  | list (elems : List Val)
  | dict (entries : List (Str × Val))

/-- Python truthiness: `None`, `""`, `0`, `0.0`, `False`, `[]` and `{}` are
falsy, everything else truthy. -/
def truthy : Val → Bool
  | .none => false
  | .str s => !s.isEmpty
  | .int n => decide (n ≠ 0)
  | .float q => decide (q ≠ 0)
  | .bool b => b
  | .list l => !l.isEmpty
  | .dict m => !m.isEmpty

/-- Python `a or b` on values. -/
def pyOr (a b : Val) : Val := if truthy a then a else b

/-- Python `dict.get(key)`: `None` when the key is absent.  Dictionaries are
modelled as association lists with unique keys, in insertion order. -/
def dictGet : List (Str × Val) → Str → Val
  | [], _ => .none
  | (k', v) :: rest, k => if k' = k then v else dictGet rest k

/-- Python `d[key] = v`: overwrite in place, or append a new key at the
end, preserving insertion order. -/
def dictSet : List (Str × Val) → Str → Val → List (Str × Val)
  | [], k, v => [(k, v)]
  | (k', v') :: rest, k, v =>
    if k' = k then (k', v) :: rest else (k', v') :: dictSet rest k v

/-- Python `key in dict`. -/
def dictHasKey : List (Str × Val) → Str → Bool
  | [], _ => false
  | (k', _) :: rest, k => if k' = k then true else dictHasKey rest k

/-! Ingestion dispatcher: API targets and timeout resolution. -/

/-- The `APITarget` dataclass from crawler.py (line 89).  `timeout` has
already been passed through `_coerce_positive_timeout` when the target list
was resolved, so it is `None` or a positive number. -/
structure APITargetRec where
  name : Str
  endpoint : Str
  token : Str
  timeout : Option ℚ
deriving DecidableEq

/-- `Crawler._coerce_positive_timeout` (crawler.py line 947): a value passes
only if it is an `int` or `float` (in Python a `bool` is an `int`, with
`True == 1` and `False == 0`) strictly greater than zero; it is then
converted to `float`. -/
def coercePositiveTimeout : Val → Option ℚ
  | .int n => if 0 < n then some (n : ℚ) else Option.none
  | .float q => if 0 < q then some q else Option.none
  | .bool b => if b then some 1 else Option.none
  | _ => Option.none

/-- The `api_target.timeout` field viewed as a Python value (it is `None`
or a float). -/
def optTimeoutVal : Option ℚ → Val
  | some q => .float q
  | Option.none => .none

/-- The candidate scan inside `Crawler._resolve_api_timeout`: return the
first candidate that coerces to a positive number, else the default. -/
def firstTimeout : List Val → ℚ → ℚ
  | [], d => d
  | v :: rest, d =>
    match coercePositiveTimeout v with
    | some t => t
    | Option.none => firstTimeout rest d

/-- The candidate list of `Crawler._resolve_api_timeout` (crawler.py line
934), in source order. -/
def timeoutCandidates (apiTarget : APITargetRec)
    (targetConfig rootConfig : List (Str × Val)) : List Val :=
  [optTimeoutVal apiTarget.timeout,
   dictGet targetConfig "api_request_timeout".data,
   dictGet rootConfig "api_request_timeout".data,
   dictGet targetConfig "request_timeout".data,
   dictGet rootConfig "request_timeout".data]

/-- `Crawler._resolve_api_timeout` (crawler.py line 928): scan the candidates
in precedence order and fall back to the pipeline default
(`self.request_timeout`). -/
def resolveApiTimeout (apiTarget : APITargetRec)
    (targetConfig rootConfig : List (Str × Val)) (defaultTimeout : ℚ) : ℚ :=
  firstTimeout (timeoutCandidates apiTarget targetConfig rootConfig) defaultTimeout

/-! Listings and the field resolver. -/

/-- The `Listing` dataclass from crawler.py (line 59). -/
structure ListingRec where
  title : Str
  url : Str
  snippet : Str
  extras : List (Str × Val)
  fields : List (Str × Val)
  categories : List Str
  category_slug : Option Str
  location : Option (List (Str × Val))

def optStrVal : Option Str → Val
  | some s => .str s
  | Option.none => .none

def optDictVal : Option (List (Str × Val)) → Val
  | some m => .dict m
  | Option.none => .none

/-- `dict.get(key, default)`. -/
def dictGetD (m : List (Str × Val)) (k : Str) (d : Val) : Val :=
  if dictHasKey m k then dictGet m k else d

/-- `dict.update`: apply the overrides left to right. -/
def dictUpdate : List (Str × Val) → List (Str × Val) → List (Str × Val)
  | base, [] => base
  | base, (k, v) :: rest => dictUpdate (dictSet base k v) rest

/-- Errors raised by the pipeline: Python `RuntimeError`, `ValueError`, and
the `TypeError`/`AttributeError` family a dynamically ill-typed
configuration value would trigger. -/
inductive PyErr where
  | runtimeError (msg : Str)
  | valueError (msg : Str)
  | typeError (label : Str)
deriving DecidableEq

/-- The `LLMRequest` dataclass from llm.py, as constructed by
`FieldGenerator._generate_ai_field`. -/
structure LLMReq where
  provider : Val
  model : Val
  prompt : Str
  fieldName : Str
  options : Val
  target : List (Str × Val)
  listing : Val

/-- The `FieldGenerator` object: an optional injected text-generation
client and the external Jinja2 renderer (strict-undefined rendering of a
template against a context, failing with a `TemplateError` message). -/
structure FieldGen where
  llmClient : Option (LLMReq → Val)
  render : Str → List (Str × Val) → Except Str Str

/-- The fixed entries of the listing context
(`FieldGenerator._build_context`, crawler.py line 143). -/
def baseListingContext (l : ListingRec) : List (Str × Val) :=
  [("title".data, .str l.title),
   ("url".data, .str l.url),
   ("snippet".data, .str l.snippet),
   ("extras".data, .dict l.extras),
   ("categories".data, .list (l.categories.map Val.str)),
   ("category_slug".data, optStrVal l.category_slug),
   ("location".data, optDictVal l.location)]

/-- Promote each extras key into the listing context when not already
present (crawler.py line 152). -/
def addExtras : List (Str × Val) → List (Str × Val) → List (Str × Val)
  | ctx, [] => ctx
  | ctx, (k, v) :: rest =>
    addExtras (if dictHasKey ctx k then ctx else ctx ++ [(k, v)]) rest

/-- Copy every string-valued entry of the listing context into the token
map, overwriting (crawler.py line 184). -/
def addStrEntries : List (Str × Val) → List (Str × Val) → List (Str × Val)
  | tokens, [] => tokens
  | tokens, (k, v) :: rest =>
    addStrEntries
      (match v with
       | .str _ => dictSet tokens k v
       | _ => tokens) rest

/-- `FieldGenerator._build_tokens` (crawler.py line 169). -/
def buildTokens (listingContext baseContext batchContext : List (Str × Val)) :
    List (Str × Val) :=
  let tokens : List (Str × Val) :=
    [("listing_title".data, dictGetD listingContext "title".data (.str [])),
     ("listing_url".data, dictGetD listingContext "url".data (.str [])),
     ("listing_snippet".data, dictGetD listingContext "snippet".data (.str [])),
     ("category".data, pyOr (dictGet baseContext "category".data) (.str [])),
     ("location".data, pyOr (dictGet batchContext "location".data) (.str [])),
     ("keyword".data, pyOr (dictGet batchContext "keyword".data) (.str [])),
     ("subdomain".data, pyOr (dictGet baseContext "subdomain".data) (.str []))]
  addStrEntries tokens listingContext

/-- `FieldGenerator._build_context` (crawler.py line 137). -/
def buildContext (l : ListingRec) (target batch : List (Str × Val)) :
    List (Str × Val) :=
  let listingContext := addExtras (baseListingContext l) l.extras
  let base : List (Str × Val) :=
    [("listing".data, .dict listingContext),
     ("category".data, dictGet target "category".data),
     ("location".data, dictGet batch "location".data),
     ("keyword".data, dictGet batch "keyword".data),
     ("subdomain".data, dictGet target "subdomain".data),
     ("target".data, .dict target),
     ("batch".data, .dict batch)]
  dictSet base "tokens".data (.dict (buildTokens listingContext base batch))

/-- `"a.b.c".split('.')`. -/
def splitDot : Str → List Str
  | [] => [[]]
  | c :: rest =>
    let r := splitDot rest
    if c = '.' then [] :: r
    else
      match r with
      | h :: t => (c :: h) :: t
      | [] => [[c]]

/-- The traversal loop of `FieldGenerator._lookup_value` (crawler.py line
254): dotted segments descend through nested dicts; a non-dict or a missing
key yields `None`. -/
def lookupSegments : Val → List Str → Val
  | current, [] => current
  | current, seg :: rest =>
    match current with
    | .dict m => if dictHasKey m seg then lookupSegments (dictGet m seg) rest else .none
    | _ => .none

/-- `FieldGenerator._lookup_value`: `None` unless the source is a dict and
the path is non-empty. -/
def lookupValue (source : Val) (path : Str) : Val :=
  match source with
  | .dict m => if path.isEmpty then .none else lookupSegments (.dict m) (splitDot path)
  | _ => .none

/-- `FieldGenerator._resolve_scrape_field` (crawler.py line 189): look the
attribute path (defaulting to the field name) up first in the listing
context, then in the full context.  A non-string truthy attribute would
crash `path.split` in Python. -/
def resolveScrapeField (fieldName : Str) (config context : List (Str × Val)) :
    Except PyErr Val :=
  match pyOr (dictGet config "attribute".data) (.str fieldName) with
  | .str path =>
    match lookupValue (dictGet context "listing".data) path with
    | .none => .ok (lookupValue (.dict context) path)
    | v => .ok v
  | _ => .error (.typeError fieldName)

/-- `FieldGenerator._prepare_render_context` (crawler.py line 233): merge the
rule's extra tokens over the base token map. -/
def prepareRenderContext (context config : List (Str × Val)) : List (Str × Val) :=
  let rc := dictSet context "listing".data (dictGet context "listing".data)
  let rc := dictSet rc "batch".data (dictGet rc "batch".data)
  let tokens :=
    match dictGetD context "tokens".data (.dict []) with
    | .dict m => m
    | _ => []
  let extraTokens :=
    match pyOr (dictGet config "tokens".data) (.dict []) with
    | .dict m => m
    | _ => []
  dictSet rc "tokens".data (.dict (dictUpdate tokens extraTokens))

/-- `FieldGenerator._generate_ai_field` (crawler.py line 202): require a
client, then provider, model and prompt template; render the prompt and
invoke the client. -/
def generateAiField (g : FieldGen) (fieldName : Str)
    (config context target : List (Str × Val)) : Except PyErr Val :=
  match g.llmClient with
  | Option.none =>
    .error (.runtimeError "LLM field generation requires an llm_client instance".data)
  | some client =>
    let provider := dictGet config "provider".data
    let model := dictGet config "model".data
    let promptTemplate := dictGet config "prompt_template".data
    if !truthy provider || !truthy model || !truthy promptTemplate then
      .error (.valueError ("AI field '".data ++ fieldName ++
        "' requires provider, model, and prompt_template".data))
    else
      match promptTemplate with
      | .str tmpl =>
        match g.render tmpl (prepareRenderContext context config) with
        | .error e =>
          .error (.valueError ("Failed to render prompt for '".data ++ fieldName ++
            "': ".data ++ e))
        | .ok prompt =>
          .ok (client
            { provider := provider
              model := model
              prompt := prompt
              fieldName := fieldName
              options := dictGetD config "options".data (.dict [])
              target := target
              listing := dictGet context "listing".data })
      | _ => .error (.typeError fieldName)

/-- The per-field dispatch in the loop of `FieldGenerator.generate`
(crawler.py line 115): `source = (config.get("source") or "scrape").lower()`,
then dispatch on `scrape` / `ai` / anything else. -/
def generateOneField (g : FieldGen) (fieldName : Str) (configVal : Val)
    (context target : List (Str × Val)) : Except PyErr Val :=
  match configVal with
  | .dict config =>
    match pyOr (dictGet config "source".data) (.str "scrape".data) with
    | .str s =>
      let source := pyLower s
      if source = "scrape".data then resolveScrapeField fieldName config context
      else if source = "ai".data then generateAiField g fieldName config context target
      else
        .error (.valueError ("Unsupported field source '".data ++ source ++
          "' for '".data ++ fieldName ++ "'".data))
    | _ => .error (.typeError fieldName)
  | _ => .error (.typeError fieldName)

/-- The field loop of `FieldGenerator.generate`: resolve each configured
field in declaration order, the first error propagating. -/
def generateFields (g : FieldGen) (context target : List (Str × Val)) :
    List (Str × Val) → List (Str × Val) → Except PyErr (List (Str × Val))
  | [], generated => .ok generated
  | (fieldName, config) :: rest, generated =>
    match generateOneField g fieldName config context target with
    | .error e => .error e
    | .ok v => generateFields g context target rest (dictSet generated fieldName v)

/-- `FieldGenerator.generate` (crawler.py line 107). -/
def generate (g : FieldGen) (l : ListingRec) (target batch : List (Str × Val)) :
    Except PyErr (List (Str × Val)) :=
  let fieldConfigs :=
    match pyOr (dictGet target "fields".data) (.dict []) with
    | .dict m => m
    | _ => []
  if fieldConfigs.isEmpty then .ok []
  else generateFields g (buildContext l target batch) target fieldConfigs []

/-! The inference engine: category rules and location extraction. -/

/-- A compiled regex (the `re` engine is external): `search` returns the
named-capture lookup of the first match, or `none` when the pattern does not
match.  A capture lookup returns `none` both for a group that does not exist
and for one that did not participate in the match, exactly like
`match.groupdict().get(name)`. -/
structure PatternRec where
  search : Str → Option (Str → Option Str)

/-- A BeautifulSoup element (external DOM), observed through the only
queries the crawler makes of it: `select_one(sel)` followed by
`get_text(strip=True)` (`none` when no node matches), `select_one(sel)`
followed by the optional `href` attribute, and the whole-element
`get_text(" ", strip=True)`. -/
structure Elem where
  selectText : Str → Option Str
  selectHref : Str → Option (Option Str)
  fullText : Str

/-- A compiled category rule, as produced by
`Crawler._prepare_category_rules`: a non-empty slug plus at least one of a
trimmed selector, a lowercased substring, and a compiled pattern. -/
structure CategoryRuleRec where
  slug : Str
  selector : Option Str
  text : Option Str
  pattern : Option PatternRec

/-- `needle` is a prefix of `hay`. -/
def startsWithStr : Str → Str → Bool
  | [], _ => true
  | _ :: _, [] => false
  | a :: as, b :: bs => a = b && startsWithStr as bs

/-- Python `needle in hay` on strings: substring containment. -/
def containsSub (needle hay : Str) : Bool :=
  match hay with
  | [] => needle.isEmpty
  | _ :: rest => startsWithStr needle hay || containsSub needle rest

/-- One rule check from the loop of `Crawler._match_category_rules`
(crawler.py line 475): every present condition must hold — the selector
matches the element, the lowercased text occurs in the lowercased listing
text, and the pattern matches the raw listing text. -/
def ruleMatches (e : Elem) (loweredText fullText : Str) (r : CategoryRuleRec) : Bool :=
  (match r.selector with
   | some sel => (e.selectText sel).isSome
   | Option.none => true) &&
  (match r.text with
   | some t => containsSub t loweredText
   | Option.none => true) &&
  (match r.pattern with
   | some p => (p.search fullText).isSome
   | Option.none => true)

/-- The accumulation loop of `Crawler._match_category_rules`: append each
matching rule's slug unless already collected. -/
def matchCategoryLoop (e : Elem) (lowered full : Str) :
    List CategoryRuleRec → List Str → List Str
  | [], found => found
  | r :: rest, found =>
    if ruleMatches e lowered full r then
      if r.slug ∈ found then matchCategoryLoop e lowered full rest found
      else matchCategoryLoop e lowered full rest (found ++ [r.slug])
    else matchCategoryLoop e lowered full rest found

/-- `Crawler._match_category_rules` (crawler.py line 465). -/
def matchCategoryRules (e : Elem) (rules : List CategoryRuleRec)
    (listingText : Str) : List Str :=
  if rules.isEmpty then []
  else matchCategoryLoop e (pyLower listingText) listingText rules []

/-- The category assignment in `Crawler.parse_listings` (crawler.py line
389): when any rule matched, the whole match list becomes the listing's
categories and the first match its primary slug. -/
def assignCategories (l : ListingRec) (cats : List Str) : ListingRec :=
  match cats with
  | [] => l
  | c :: _ => { l with categories := cats, category_slug := some c }

/-- First-occurrence deduplication, against an initial set of already seen
values. -/
def dedupFirstAux : List Str → List Str → List Str
  | _, [] => []
  | seen, s :: rest =>
    if s ∈ seen then dedupFirstAux seen rest
    else s :: dedupFirstAux (seen ++ [s]) rest

/-- Keep the first occurrence of every value, in order. -/
def dedupFirst (l : List Str) : List Str := dedupFirstAux [] l

/-! Location extraction. -/

/-- `LOCATION_FIELDS` from crawler.py (line 51): the fixed address keys. -/
def LOCATION_FIELDS : List Str :=
  ["addressLine1".data, "addressLine2".data, "city".data,
   "region".data, "postalCode".data, "country".data]

/-- ASCII fragment of the whitespace class Python `str.strip()` and `\s`
use: space, tab, newline, carriage return, vertical tab, form feed. -/
def isPySpace (c : Char) : Bool :=
  c = ' ' || c = '\t' || c = '\n' || c = '\r' ||
    c = Char.ofNat 11 || c = Char.ofNat 12

/-- Drop trailing characters satisfying `p`. -/
def rstripIf (p : Char → Bool) : Str → Str
  | [] => []
  | c :: rest =>
    let r := rstripIf p rest
    if r = [] ∧ p c then [] else c :: r

/-- Python `str.strip()`. -/
def pystrip (s : Str) : Str := rstripIf isPySpace (s.dropWhile isPySpace)

/-- `Crawler._normalize_string` (crawler.py line 953): strip a string,
yielding `None` for non-strings and for whitespace-only strings. -/
def normalizeStringVal : Val → Option Str
  | .str s =>
    let t := pystrip s
    if t.isEmpty then Option.none else some t
  | _ => Option.none

/-- The field scan of `Crawler._normalize_location` (crawler.py line 960):
keep, in `LOCATION_FIELDS` order, every present field whose value strips to
a non-empty string. -/
def normalizeLocationFields (m : List (Str × Val)) : List Str → List (Str × Val)
  | [] => []
  | f :: fs =>
    if dictHasKey m f then
      match normalizeStringVal (dictGet m f) with
      | some nv => (f, .str nv) :: normalizeLocationFields m fs
      | Option.none => normalizeLocationFields m fs
    else normalizeLocationFields m fs

/-- `Crawler._normalize_location`: `None` unless the input is a dict with at
least one non-empty normalized field (`normalized or None`). -/
def normalizeLocation : Val → Option (List (Str × Val))
  | .dict m =>
    let n := normalizeLocationFields m LOCATION_FIELDS
    if n.isEmpty then Option.none else some n
  | _ => Option.none

/-- The selector loop of `Crawler._extract_location_from_element`
(crawler.py line 500): each configured field whose selector finds a node
with non-empty stripped text is recorded. -/
def selectorPhase (e : Elem) : List (Str × Val) → List (Str × Str) → List (Str × Val)
  | extracted, [] => extracted
  | extracted, (f, sel) :: rest =>
    match e.selectText sel with
    | Option.none => selectorPhase e extracted rest
    | some value =>
      selectorPhase e
        (if value.isEmpty then extracted else dictSet extracted f (.str value)) rest

/-- One field update of the capture scan (crawler.py line 513): a truthy
capture lands only in a field not already populated, stripped. -/
def captureUpdate (captures : Str → Option Str) (extracted : List (Str × Val))
    (f : Str) : List (Str × Val) :=
  match captures f with
  | some c =>
    if ¬ c.isEmpty ∧ ¬ dictHasKey extracted f then
      dictSet extracted f (.str (pystrip c))
    else extracted
  | Option.none => extracted

/-- The capture scan of one pattern match (crawler.py line 512): only the
fixed `LOCATION_FIELDS` are consulted, and a capture lands only in a field
not already populated. -/
def patternCaptureFields (captures : Str → Option Str) :
    List (Str × Val) → List Str → List (Str × Val)
  | extracted, [] => extracted
  | extracted, f :: fs =>
    patternCaptureFields captures (captureUpdate captures extracted f) fs

/-- The pattern loop of `Crawler._extract_location_from_element` (crawler.py
line 507): every matching pattern contributes its captures. -/
def patternPhase (listingText : Str) : List (Str × Val) → List PatternRec → List (Str × Val)
  | extracted, [] => extracted
  | extracted, p :: ps =>
    match p.search listingText with
    | Option.none => patternPhase listingText extracted ps
    | some captures =>
      patternPhase listingText
        (patternCaptureFields captures extracted LOCATION_FIELDS) ps

/-- `Crawler._extract_location_from_element` (crawler.py line 490). -/
def extractLocationFromElement (e : Elem) (selectors : List (Str × Str))
    (patterns : List PatternRec) (listingText : Str) : Option (List (Str × Val)) :=
  if selectors.isEmpty ∧ patterns.isEmpty then Option.none
  else
    let extracted := selectorPhase e [] selectors
    let extracted :=
      if ¬ listingText.isEmpty ∧ ¬ patterns.isEmpty then
        patternPhase listingText extracted patterns
      else extracted
    normalizeLocation (.dict extracted)

/-! The markup extractor. -/

/-- `DEFAULT_SELECTORS` from crawler.py (line 43). -/
def DEFAULT_SELECTORS : List (Str × Val) :=
  [("listing".data, .str "[data-listing], article".data),
   ("title".data, .str ".listing-title, h2, h3, a".data),
   ("link".data, .str "a".data),
   ("description".data, .str ".listing-description, p".data)]

/-- Read a selector out of the merged selector dict.  The defaults guarantee
every key is present as a string; a non-string override would crash
`soup.select` in Python. -/
def getSel (selectors : List (Str × Val)) (k : Str) : Str :=
  match dictGet selectors k with
  | .str s => s
  | _ => []

/-- `Crawler._normalize_subdomain` (crawler.py line 661): empty for a falsy
value, scheme-prefixed values lose trailing slashes, anything else is
wrapped in `https://` with slashes stripped from both ends. -/
def normalizeSubdomain (value : Option Str) : Str :=
  match value with
  | Option.none => []
  | some v =>
    if v.isEmpty then []
    else if startsWithStr "http://".data v || startsWithStr "https://".data v then
      rstripIf (fun c => c = '/') v
    else
      "https://".data ++
        rstripIf (fun c => c = '/') (v.dropWhile (fun c => c = '/'))

/-- External: `urllib.parse.urljoin`, in the only regime the crawler uses it
in — the base ends with a slash and the relative part is scheme-less with
its leading slashes stripped — where it appends the relative part, and an
empty relative part returns the base unchanged. -/
def urljoin (base rel : Str) : Str := if rel.isEmpty then base else base ++ rel

/-- `Crawler._normalize_url` (crawler.py line 669): empty stays empty,
absolute URLs pass through, relative ones are joined onto the normalized
subdomain (or a bare `https://`). -/
def normalizeUrl (href : Str) (subdomain : Option Str) : Str :=
  if href.isEmpty then []
  else if startsWithStr "http://".data href || startsWithStr "https://".data href then
    href
  else
    let b := normalizeSubdomain subdomain
    let base := if b.isEmpty then "https://".data else b
    urljoin (base ++ "/".data) (href.dropWhile (fun c => c = '/'))

/-- `sep.join(parts)`. -/
def joinStr (sep : Str) : List Str → Str
  | [] => []
  | [s] => s
  | s :: rest => s ++ sep ++ joinStr sep rest

/-- `Crawler._gather_listing_text` (crawler.py line 396): the non-empty
string parts, then the element's own text if non-empty, joined by spaces
and stripped. -/
def gatherListingText (e : Elem) (parts : List Str) : Str :=
  let ps := parts.filter (fun p => ¬ p.isEmpty)
  let ps := if e.fullText.isEmpty then ps else ps ++ [e.fullText]
  pystrip (joinStr " ".data ps)

/-- The extracted title of a candidate element (crawler.py line 360):
the selected node's stripped text, or empty when no node matches. -/
def extractedTitle (e : Elem) (titleSel : Str) : Str :=
  (e.selectText titleSel).getD []

/-- The extracted URL of a candidate element (crawler.py line 361): the
link node's stripped `href`, or empty when there is no link node or no
`href` attribute. -/
def extractedUrl (e : Elem) (linkSel : Str) : Str :=
  match e.selectHref linkSel with
  | some (some h) => pystrip h
  | _ => []

/-- The per-target inputs of the `parse_listings` element loop: the three
per-element selectors from the merged selector dict, the subdomain, the
prepared address selectors and patterns, the compiled category rules, and
the batch's location/keyword labels. -/
structure ParseCfg where
  titleSel : Str
  linkSel : Str
  descSel : Str
  subdomain : Option Str
  addrSelectors : List (Str × Str)
  addrPatterns : List PatternRec
  rules : List CategoryRuleRec
  location : Str
  keyword : Option Str

/-- The body of the element loop of `Crawler.parse_listings` (crawler.py
line 355): extract title, URL, snippet and link text; discard the candidate
when title and URL are both empty; otherwise build the Listing with its
extras, inferred location and matched categories. -/
def parseElement (cfg : ParseCfg) (e : Elem) : Option ListingRec :=
  let title := extractedTitle e cfg.titleSel
  let url := extractedUrl e cfg.linkSel
  let snippet := (e.selectText cfg.descSel).getD []
  let linkText0 := (e.selectText cfg.linkSel).getD []
  let linkText := if linkText0.isEmpty then title else linkText0
  if title.isEmpty ∧ url.isEmpty then Option.none
  else
    let listingText := gatherListingText e [title, snippet, linkText]
    let listing : ListingRec :=
      { title := title
        url := normalizeUrl url cfg.subdomain
        snippet := snippet
        extras := [("location".data, .str cfg.location),
                   ("keyword".data, optStrVal cfg.keyword),
                   ("link_text".data, .str linkText)]
        fields := []
        categories := []
        category_slug := Option.none
        location := extractLocationFromElement e cfg.addrSelectors
          cfg.addrPatterns listingText }
    some (assignCategories listing (matchCategoryRules e cfg.rules listingText))

/-- The element loop of `Crawler.parse_listings`, in document order. -/
def parseLoop (cfg : ParseCfg) : List Elem → List ListingRec
  | [] => []
  | e :: rest =>
    match parseElement cfg e with
    | Option.none => parseLoop cfg rest
    | some l => l :: parseLoop cfg rest

/-- `Crawler.parse_listings` (crawler.py line 340): merge the selector
overrides onto the defaults, select the candidate elements (the
BeautifulSoup document is the external `select` function), and run the
element loop.  The prepared address selectors, patterns and category rules
are passed in compiled form, the regex engine being external. -/
def parseListings (select : Str → List Elem) (selectorOverrides : List (Str × Val))
    (subdomain : Option Str) (addrSelectors : List (Str × Str))
    (addrPatterns : List PatternRec) (rules : List CategoryRuleRec)
    (location : Str) (keyword : Option Str) : List ListingRec :=
  let selectors := dictUpdate DEFAULT_SELECTORS selectorOverrides
  let cfg : ParseCfg :=
    { titleSel := getSel selectors "title".data
      linkSel := getSel selectors "link".data
      descSel := getSel selectors "description".data
      subdomain := subdomain
      addrSelectors := addrSelectors
      addrPatterns := addrPatterns
      rules := rules
      location := location
      keyword := keyword }
  parseLoop cfg (select (getSel selectors "listing".data))

/-! The ingestion dispatcher: payload construction and batch POSTing. -/

/-- `Crawler._slugify` applied to an arbitrary value: non-strings slugify
to the empty string. -/
def slugifyVal : Val → Str
  | .str s => slugify s
  | _ => []

/-- `Crawler._resolve_category_slug` (crawler.py line 834): slugify
`category_slug or categorySlug or category or ""`; an empty result is a
fatal configuration error. -/
def resolveCategorySlug (targetConfig : List (Str × Val)) : Except PyErr Str :=
  let slugSource :=
    pyOr (pyOr (pyOr (dictGet targetConfig "category_slug".data)
      (dictGet targetConfig "categorySlug".data))
      (dictGet targetConfig "category".data)) (.str [])
  let slug := slugifyVal slugSource
  if slug.isEmpty then
    .error (.valueError "Crawler target must define a category to derive categorySlug".data)
  else .ok slug

/-- The key scan of `Crawler._resolve_source_name` (crawler.py line 846). -/
def firstNormalized (m : List (Str × Val)) : List Str → Option Str
  | [] => Option.none
  | k :: ks =>
    match normalizeStringVal (dictGet m k) with
    | some v => some v
    | Option.none => firstNormalized m ks

/-- `Crawler._resolve_source_name`: the first of `source_name`,
`sourceName`, `subdomain`, `category` that normalizes to a non-empty
string. -/
def resolveSourceName (targetConfig : List (Str × Val)) : Option Str :=
  firstNormalized targetConfig
    ["source_name".data, "sourceName".data, "subdomain".data, "category".data]

/-- `Crawler._coerce_mapping` (crawler.py line 874). -/
def coerceMapping : Val → Option (List (Str × Val))
  | .dict m => some m
  | _ => Option.none

/-- `Crawler._merge_mappings` (crawler.py line 864): override entries land
key by key, recursing when both sides hold dicts. -/
def mergeMappings : List (Str × Val) → List (Str × Val) → List (Str × Val)
  | merged, [] => merged
  | merged, (k, v) :: rest =>
    let newVal :=
      match dictGet merged k, v with
      | .dict mb, .dict mo => Val.dict (mergeMappings mb mo)
      | _, _ => v
    mergeMappings (dictSet merged k newVal) rest

/-- Python `a or b` on two optional dicts, with empty dicts falsy. -/
def orMaps (a b : Option (List (Str × Val))) : Option (List (Str × Val)) :=
  match a with
  | some m => if m.isEmpty then b else a
  | Option.none => b

/-- `Crawler._resolve_post_processing_config` (crawler.py line 853): merge
the root and target `post_processing` mappings when both are truthy dicts,
else `target_map or root_map`. -/
def resolvePostProcessingConfig (rootConfig targetConfig : List (Str × Val)) :
    Option (List (Str × Val)) :=
  let rootMap := coerceMapping (dictGet rootConfig "post_processing".data)
  let targetMap := coerceMapping (dictGet targetConfig "post_processing".data)
  match rootMap, targetMap with
  | some r, some t =>
    if ¬ r.isEmpty ∧ ¬ t.isEmpty then some (mergeMappings r t)
    else orMaps targetMap rootMap
  | _, _ => orMaps targetMap rootMap

def optToList : Option Str → List Str
  | some s => [s]
  | Option.none => []

/-- The address-dict branch of `Crawler._resolve_location_label`
(crawler.py line 899): assemble `line1, line2, city+region+postal,
country`. -/
def locationLabelFromDict (loc : List (Str × Val)) : Option Str :=
  let line1 := normalizeStringVal (dictGet loc "addressLine1".data)
  let line2 := normalizeStringVal (dictGet loc "addressLine2".data)
  let city := normalizeStringVal (dictGet loc "city".data)
  let region := normalizeStringVal (dictGet loc "region".data)
  let postal := normalizeStringVal (dictGet loc "postalCode".data)
  let country := normalizeStringVal (dictGet loc "country".data)
  let cityRegion := joinStr ", ".data (optToList city ++ optToList region)
  let cityRegion :=
    match postal with
    | some p => if cityRegion.isEmpty then p else pystrip (cityRegion ++ " ".data ++ p)
    | Option.none => cityRegion
  let parts := optToList line1 ++ optToList line2 ++
    (if cityRegion.isEmpty then [] else [cityRegion]) ++ optToList country
  if parts.isEmpty then Option.none else some (joinStr ", ".data parts)

/-- `Crawler._resolve_location_label` (crawler.py line 897): address dict,
then the `location` extra, then the stripped batch fallback. -/
def resolveLocationLabel (l : ListingRec) (fallback : Str) : Option Str :=
  let fromDict :=
    match l.location with
    | some loc => locationLabelFromDict loc
    | Option.none => Option.none
  match fromDict with
  | some s => some s
  | Option.none =>
    match normalizeStringVal (dictGet l.extras "location".data) with
    | some s => some s
    | Option.none =>
      if (pystrip fallback).isEmpty then Option.none else some (pystrip fallback)

/-- `Crawler._build_post_processing_extras` (crawler.py line 880). -/
def buildPostProcessingExtras (l : ListingRec) (batchLocation : Str)
    (batchMeta : List (Str × Val)) : List (Str × Val) :=
  let keyword := normalizeStringVal (dictGet l.extras "keyword".data)
  let batchKeyword := normalizeStringVal (dictGet batchMeta "keyword".data)
  let searchUrl := normalizeStringVal (dictGet batchMeta "search_url".data)
  let extras : List (Str × Val) :=
    match keyword, batchKeyword with
    | some k, _ => [("keyword".data, .str k)]
    | Option.none, some bk => [("keyword".data, .str bk)]
    | Option.none, Option.none => []
  let extras :=
    match searchUrl with
    | some u => extras ++ [("search_url".data, .str u)]
    | Option.none => extras
  let extras :=
    if batchLocation.isEmpty then extras
    else extras ++ [("batch_location".data, .str batchLocation)]
  if l.categories.isEmpty then extras
  else extras ++ [("categories".data, .str (joinStr ", ".data l.categories))]

/-- The `PostProcessingContext` dataclass (post_processing.py line 18), as
`Crawler._build_listing_payload` fills it in. -/
structure PPContext where
  title : Str
  snippet : Str
  summary : Val
  description : Val
  category : Val
  categorySlug : Val
  location : Option Str
  keyword : Option Str
  sourceName : Val
  sourceUrl : Val
  extras : List (Str × Val)

/-- `value is None`. -/
def isNoneVal : Val → Bool
  | .none => true
  | _ => false

/-- The `CrawlerBatch` dataclass (crawler.py line 71). -/
structure BatchRec where
  category : Str
  location : Str
  subdomain : Option Str
  listings : List ListingRec
  metadata : List (Str × Val)

/-- The category write-back in `Crawler._build_listing_payload` (crawler.py
lines 800-802): the normalized slug becomes the listing's primary slug and
joins its category list when absent. -/
def writeBackCategory (l : ListingRec) (normalizedCategory : Str) : ListingRec :=
  { l with
    category_slug := some normalizedCategory
    categories :=
      if normalizedCategory ∈ l.categories then l.categories
      else l.categories ++ [normalizedCategory] }

/-- `Crawler._build_listing_payload` (crawler.py line 777).  The
post-processing normalizer is the external parameter `pp` (it receives the
payload, the context built here, and the merged configuration).  Returns
the payload (`none` when the listing lacks a title and is dropped) together
with the listing as the call leaves it. -/
def buildListingPayload
    (pp : List (Str × Val) → PPContext → Option (List (Str × Val)) →
      Except PyErr (List (Str × Val)))
    (l : ListingRec) (targetConfig rootConfig : List (Str × Val))
    (defaultCategorySlug : Str) (batch : BatchRec) :
    Except PyErr (Option (List (Str × Val)) × ListingRec) :=
  let payload := l.fields
  match (match normalizeStringVal (dictGet payload "title".data) with
         | some t => some t
         | Option.none => normalizeStringVal (.str l.title)) with
  | Option.none => .ok (Option.none, l)
  | some title =>
    let payload := dictSet payload "title".data (.str title)
    let payload :=
      match (match normalizeStringVal (dictGet payload "sourceUrl".data) with
             | some u => some u
             | Option.none => normalizeStringVal (.str l.url)) with
      | some u => dictSet payload "sourceUrl".data (.str u)
      | Option.none => payload
    let categorySlugVal :=
      pyOr (pyOr (dictGet payload "categorySlug".data) (optStrVal l.category_slug))
        (.str defaultCategorySlug)
    let normalizedCategory := slugifyVal categorySlugVal
    if normalizedCategory.isEmpty then
      .error (.valueError "Unable to determine category slug for API payload".data)
    else
      let payload := dictSet payload "categorySlug".data (.str normalizedCategory)
      let updated := writeBackCategory l normalizedCategory
      let payload :=
        match (match normalizeStringVal (dictGet payload "sourceName".data) with
               | some v => some v
               | Option.none => resolveSourceName targetConfig) with
        | some v => dictSet payload "sourceName".data (.str v)
        | Option.none => payload
      let locationPayload :=
        match dictGet payload "location".data with
        | .dict m => Val.dict m
        | _ => optDictVal updated.location
      let payload :=
        match normalizeLocation locationPayload with
        | some nl => dictSet payload "location".data (.dict nl)
        | Option.none => payload
      let context : PPContext :=
        { title := l.title
          snippet := l.snippet
          summary := dictGet payload "summary".data
          description := dictGet payload "description".data
          category := dictGet targetConfig "category".data
          categorySlug := dictGet payload "categorySlug".data
          location := resolveLocationLabel updated batch.location
          keyword :=
            match normalizeStringVal (dictGet updated.extras "keyword".data) with
            | some k => some k
            | Option.none => normalizeStringVal (dictGet batch.metadata "keyword".data)
          sourceName := dictGet payload "sourceName".data
          sourceUrl := pyOr (dictGet payload "sourceUrl".data) (.str l.url)
          extras := buildPostProcessingExtras updated batch.location batch.metadata }
      match pp payload context (resolvePostProcessingConfig rootConfig targetConfig) with
      | .error e => .error e
      | .ok processed =>
        .ok (some (processed.filter (fun kv => ¬ isNoneVal kv.2)), updated)

/-- The listing loop of `Crawler._build_ingestion_payloads` (crawler.py
line 765). -/
def buildPayloadLoop
    (pp : List (Str × Val) → PPContext → Option (List (Str × Val)) →
      Except PyErr (List (Str × Val)))
    (targetConfig rootConfig : List (Str × Val)) (defaultCategorySlug : Str)
    (batch : BatchRec) :
    List ListingRec → Except PyErr (List (List (Str × Val)) × List ListingRec)
  | [] => .ok ([], [])
  | l :: rest =>
    match buildListingPayload pp l targetConfig rootConfig defaultCategorySlug batch with
    | .error e => .error e
    | .ok (payloadOpt, updated) =>
      match buildPayloadLoop pp targetConfig rootConfig defaultCategorySlug batch rest with
      | .error e => .error e
      | .ok (payloads, updatedRest) =>
        .ok ((match payloadOpt with
              | some p => p :: payloads
              | Option.none => payloads), updated :: updatedRest)

/-- `Crawler._build_ingestion_payloads` (crawler.py line 757): the default
category slug is derived from the target configuration before any listing
is considered. -/
def buildIngestionPayloads
    (pp : List (Str × Val) → PPContext → Option (List (Str × Val)) →
      Except PyErr (List (Str × Val)))
    (batch : BatchRec) (targetConfig rootConfig : List (Str × Val)) :
    Except PyErr (List (List (Str × Val)) × List ListingRec) :=
  match resolveCategorySlug targetConfig with
  | .error e => .error e
  | .ok defaultSlug =>
    buildPayloadLoop pp targetConfig rootConfig defaultSlug batch batch.listings

/-- The API-target loop of `Crawler._post_batch_to_api` (crawler.py line
734): POST to each target in turn; `raise_for_status` turns the first
non-success response or transport failure into an exception that leaves the
loop.  The result records which targets were attempted and the propagated
error, if any. -/
def dispatchLoop (postFn : APITargetRec → Option PyErr) :
    List APITargetRec → List APITargetRec × Option PyErr
  | [] => ([], Option.none)
  | t :: rest =>
    match postFn t with
    | some e => ([t], some e)
    | Option.none =>
      let r := dispatchLoop postFn rest
      (t :: r.1, r.2)

/-- `Crawler._post_batch_to_api` (crawler.py line 722): skip empty batches
and absent targets, build the payloads (a failure there propagates before
any POST), skip when no payload survived, then fan out over the API
targets with per-target resolved timeouts.  `post` is the external
`session.post` + `raise_for_status` pair: `none` for a 2xx response, an
error for a non-success response or transport failure. -/
def postBatchToApi
    (pp : List (Str × Val) → PPContext → Option (List (Str × Val)) →
      Except PyErr (List (Str × Val)))
    (post : APITargetRec → ℚ → List (List (Str × Val)) → Option PyErr)
    (batch : BatchRec) (targetConfig : List (Str × Val))
    (apiTargets : List APITargetRec) (rootConfig : List (Str × Val))
    (defaultTimeout : ℚ) : List APITargetRec × Option PyErr :=
  if batch.listings.isEmpty ∨ apiTargets.isEmpty then ([], Option.none)
  else
    match buildIngestionPayloads pp batch targetConfig rootConfig with
    | .error e => ([], some e)
    | .ok (payloads, _) =>
      if payloads.isEmpty then ([], Option.none)
      else
        dispatchLoop
          (fun t => post t (resolveApiTimeout t targetConfig rootConfig defaultTimeout)
            payloads) apiTargets

/-! Concrete fixtures used by witnesses and counterexamples. -/

/-- A post-processor that passes payloads through unchanged. -/
def ppIdentity : List (Str × Val) → PPContext → Option (List (Str × Val)) →
    Except PyErr (List (Str × Val)) :=
  fun p _ _ => .ok p

/-- A transport in which the target named `one` answers HTTP 500 and every
other target succeeds. -/
def postFailOne : APITargetRec → ℚ → List (List (Str × Val)) → Option PyErr :=
  fun t _ _ =>
    if t.name = "one".data then some (.runtimeError "HTTP 500".data)
    else Option.none

def apiTargetOne : APITargetRec :=
  ⟨"one".data, "https://one.example/api".data, "tok1".data, Option.none⟩

def apiTargetTwo : APITargetRec :=
  ⟨"two".data, "https://two.example/api".data, "tok2".data, Option.none⟩

def listingAcme : ListingRec :=
  { title := "Acme".data
    url := "https://acme.example".data
    snippet := []
    extras := []
    fields := []
    categories := []
    category_slug := Option.none
    location := Option.none }

def batchAcme : BatchRec :=
  { category := "Shops".data
    location := "Berlin".data
    subdomain := Option.none
    listings := [listingAcme]
    metadata := [] }

def shopsTargetConfig : List (Str × Val) := [("category".data, .str "Shops".data)]

/-! Import mode: text_import.py enrichment with per-record error tracking. -/

/-- `_WHITESPACE_PATTERN.sub(" ", s)`: collapse every maximal whitespace run
into one space.  The flag records an open run that has already emitted its
space. -/
def subSpaces : Bool → Str → Str
  | _, [] => []
  | prev, c :: rest =>
    if ¬ isPySpace c then c :: subSpaces false rest
    else if prev then subSpaces true rest
    else ' ' :: subSpaces true rest

/-- `_collapse_whitespace` from text_import.py (line 423). -/
def collapseWs (s : Str) : Str := pystrip (subSpaces false s)

/-- `_normalize_string` from text_import.py (line 416): strip, `None` for
non-strings and whitespace-only strings, and collapse inner whitespace. -/
def tiNormalizeString : Val → Option Str
  | .str s =>
    let st := pystrip s
    if st.isEmpty then Option.none else some (collapseWs st)
  | _ => Option.none

/-- The `ImportDefaults` dataclass from text_import.py (line 64). -/
structure ImportDefaultsRec where
  category : Option Str
  category_slug : Option Str
  source_name : Option Str
  location_label : Option Str

/-- The field scan of `ListingEnricher._normalize_location` (text_import.py
line 349). -/
def tiLocationFields (m : List (Str × Val)) : List Str → List (Str × Val)
  | [] => []
  | f :: fs =>
    if dictHasKey m f then
      match tiNormalizeString (dictGet m f) with
      | some v => (f, .str v) :: tiLocationFields m fs
      | Option.none => tiLocationFields m fs
    else tiLocationFields m fs

/-- `ListingEnricher._normalize_location`. -/
def tiNormalizeLocation : Val → Option (List (Str × Val))
  | .dict m =>
    let n := tiLocationFields m LOCATION_FIELDS
    if n.isEmpty then Option.none else some n
  | _ => Option.none

/-- `ListingEnricher._normalize_payload` (text_import.py line 260): title is
required; the slug defaults to the slugified title; the category slug falls
back through the listing value, the default slug and the slugified default
category — under Python's conditional-expression precedence the whole
chain collapses to `""` whenever the default category is falsy; a missing
category slug is a fatal error; the remaining fields are copied when
normalizable. -/
def tiNormalizePayload (listing : List (Str × Val)) (d : ImportDefaultsRec)
    (index : ℕ) : Except PyErr (List (Str × Val)) :=
  match tiNormalizeString (dictGet listing "title".data) with
  | Option.none =>
    .error (.valueError ("Listing #".data ++ (toString (index + 1)).data ++
      " is missing a title".data))
  | some title =>
    let normalized : List (Str × Val) := [("title".data, Val.str title)]
    let slug :=
      match tiNormalizeString (dictGet listing "slug".data) with
      | some s => s
      | Option.none => slugify title
    let normalized := dictSet normalized "slug".data (.str slug)
    let normalized :=
      match tiNormalizeString (pyOr (dictGet listing "summary".data)
          (dictGet listing "snippet".data)) with
      | some s => dictSet normalized "summary".data (.str s)
      | Option.none => normalized
    let normalized :=
      match tiNormalizeString (dictGet listing "description".data) with
      | some s => dictSet normalized "description".data (.str s)
      | Option.none => normalized
    let categorySlug : Str :=
      match d.category with
      | some cat =>
        if cat.isEmpty then []
        else
          match tiNormalizeString (dictGet listing "categorySlug".data) with
          | some s => s
          | Option.none =>
            match d.category_slug with
            | some b => if b.isEmpty then slugify cat else b
            | Option.none => slugify cat
      | Option.none => []
    if categorySlug.isEmpty then
      .error (.valueError ("Listing #".data ++ (toString (index + 1)).data ++
        " is missing categorySlug (provide --category or --category-slug)".data))
    else
      let normalized := dictSet normalized "categorySlug".data (.str categorySlug)
      let normalized :=
        match tiNormalizeString (dictGet listing "websiteUrl".data) with
        | some s => dictSet normalized "websiteUrl".data (.str s)
        | Option.none => normalized
      let normalized :=
        match tiNormalizeString (dictGet listing "sourceUrl".data) with
        | some s => dictSet normalized "sourceUrl".data (.str s)
        | Option.none => normalized
      let normalized :=
        match tiNormalizeString (dictGet listing "contactEmail".data) with
        | some s => dictSet normalized "contactEmail".data (.str s)
        | Option.none => normalized
      let sourceName :=
        match tiNormalizeString (dictGet listing "sourceName".data) with
        | some v => some v
        | Option.none => d.source_name
      let normalized :=
        match sourceName with
        | some v =>
          if v.isEmpty then normalized else dictSet normalized "sourceName".data (.str v)
        | Option.none => normalized
      let normalized :=
        match tiNormalizeLocation (dictGet listing "location".data) with
        | some loc => dictSet normalized "location".data (.dict loc)
        | Option.none => normalized
      let normalized :=
        match tiNormalizeString (dictGet listing "tagline".data) with
        | some s => dictSet normalized "tagline".data (.str s)
        | Option.none => normalized
      let normalized :=
        match tiNormalizeString (dictGet listing "notes".data) with
        | some s => dictSet normalized "notes".data (.str s)
        | Option.none => normalized
      .ok normalized

/-- `ListingEnricher._build_context`'s location label chain (text_import.py
line 329). -/
def tiLocationLabel (listing : List (Str × Val)) (d : ImportDefaultsRec) :
    Option Str :=
  match tiNormalizeString (dictGet listing "locationLabel".data) with
  | some s => some s
  | Option.none =>
    match d.location_label with
    | some lbl =>
      if lbl.isEmpty then tiNormalizeString (dictGet listing "location".data)
      else some lbl
    | Option.none => tiNormalizeString (dictGet listing "location".data)

/-- The `PostProcessingContext` as `ListingEnricher._build_context`
(text_import.py line 323) fills it in. -/
structure TIPPContext where
  title : Val
  snippet : Val
  summary : Val
  description : Val
  categorySlug : Val
  sourceName : Val
  sourceUrl : Val
  category : Option Str
  location : Option Str
  extras : List (Str × Val)

def buildTIContext (payload listing : List (Str × Val))
    (d : ImportDefaultsRec) : TIPPContext :=
  { title := dictGet payload "title".data
    snippet :=
      match tiNormalizeString (dictGet listing "snippet".data) with
      | some s => .str s
      | Option.none => dictGet payload "summary".data
    summary := dictGet payload "summary".data
    description := dictGet payload "description".data
    categorySlug := dictGet payload "categorySlug".data
    sourceName := dictGet payload "sourceName".data
    sourceUrl := dictGet payload "sourceUrl".data
    category := d.category
    location := tiLocationLabel listing d
    extras :=
      match dictGet listing "extras".data with
      | .dict m => m
      | _ => [] }

/-- One recorded data-quality warning (`ImportResult.add_warning`,
import_result.py line 45). -/
structure WarnEntry where
  listingTitle : Val
  warning : Str
  field : Option Str
  line : ℕ

/-- `ImportResult.check_optional_field` (import_result.py line 170). -/
def checkOptionalField (payload : List (Str × Val)) (field : Str) (line : ℕ) :
    Option WarnEntry :=
  let value := dictGet payload field
  if (!truthy value ||
      (match value with
       | .str s => (pystrip s).isEmpty
       | _ => false)) = true then
    some ⟨dictGetD payload "title".data (.str "Unknown".data),
      "Missing recommended field: ".data ++ field, some field, line⟩
  else Option.none

/-- `ImportResult.validate_url` (import_result.py line 188). -/
def validateUrl (payload : List (Str × Val)) (field : Str) (line : ℕ) :
    Option WarnEntry :=
  match dictGet payload field with
  | .str s =>
    if s.isEmpty then Option.none
    else
      let lower := pyLower s
      if startsWithStr "http://".data lower || startsWithStr "https://".data lower then
        Option.none
      else
        some ⟨dictGetD payload "title".data (.str "Unknown".data),
          "URL may be invalid (missing http:// or https://): ".data ++ s,
          some field, line⟩
  | _ => Option.none

/-- `ImportResult.validate_email` (import_result.py line 208): the address
must contain `@` and a dot after the last `@`. -/
def validateEmail (payload : List (Str × Val)) (field : Str) (line : ℕ) :
    Option WarnEntry :=
  match dictGet payload field with
  | .str s =>
    if s.isEmpty then Option.none
    else
      let afterAt := (s.reverse.takeWhile (fun x => ¬ x = '@')).reverse
      if '@' ∈ s ∧ '.' ∈ afterAt then Option.none
      else
        some ⟨dictGetD payload "title".data (.str "Unknown".data),
          "Email may be invalid: ".data ++ s, some field, line⟩
  | _ => Option.none

/-- `ListingEnricher._validate_listing_quality` (text_import.py line 239):
the warnings it records, in call order. -/
def qualityWarnings (payload : List (Str × Val)) (line : ℕ) : List WarnEntry :=
  [checkOptionalField payload "summary".data line,
   checkOptionalField payload "description".data line,
   checkOptionalField payload "websiteUrl".data line,
   checkOptionalField payload "contactEmail".data line,
   checkOptionalField payload "location".data line,
   validateUrl payload "websiteUrl".data line,
   validateUrl payload "sourceUrl".data line,
   validateEmail payload "contactEmail".data line].filterMap id

/-- The `ImportResult` tracker (import_result.py line 12): successes carry
the enriched payload and line, failures the input record, the stringified
error and line, warnings their entries.  (Timestamps are wall-clock and not
modelled.) -/
structure ImportResultRec where
  successful : List (List (Str × Val) × ℕ)
  failed : List (List (Str × Val) × Str × ℕ)
  warnings : List WarnEntry

def emptyImportResult : ImportResultRec := ⟨[], [], []⟩

/-- `ImportResult.add_success`. -/
def addSuccess (r : ImportResultRec) (listing : List (Str × Val)) (line : ℕ) :
    ImportResultRec :=
  { r with successful := r.successful ++ [(listing, line)] }

/-- `ImportResult.add_error` (the error is stored stringified). -/
def addError (r : ImportResultRec) (listing : List (Str × Val)) (errMsg : Str)
    (line : ℕ) : ImportResultRec :=
  { r with failed := r.failed ++ [(listing, errMsg, line)] }

def addWarnings (r : ImportResultRec) (ws : List WarnEntry) : ImportResultRec :=
  { r with warnings := r.warnings ++ ws }

/-- `ImportResult.total`. -/
def totalCount (r : ImportResultRec) : ℕ :=
  r.successful.length + r.failed.length

/-- `ImportResult.success_rate` (import_result.py line 68): zero when
nothing was processed, else `successful / total * 100`. -/
def successRate (r : ImportResultRec) : ℚ :=
  if totalCount r = 0 then 0
  else ((r.successful.length : ℚ) / (totalCount r : ℚ)) * 100

/-- `str(error)`. -/
def errToStr : PyErr → Str
  | .runtimeError m => m
  | .valueError m => m
  | .typeError m => m

/-- The `ListingEnricher`: its loaded post-processing configuration and the
external `ListingPostProcessor.process` call. -/
structure EnricherRec where
  ppConfig : Option (List (Str × Val))
  process : List (Str × Val) → TIPPContext → Option (List (Str × Val)) →
    Except PyErr (List (Str × Val))

/-- The net outcome of one record of `ListingEnricher.enrich`: normalize,
post-process, and drop null-valued keys; the first failure wins. -/
def recordOutcome (er : EnricherRec) (d : ImportDefaultsRec) (index : ℕ)
    (listing : List (Str × Val)) : Except PyErr (List (Str × Val)) :=
  match tiNormalizePayload listing d index with
  | .error e => .error e
  | .ok payload =>
    match er.process payload (buildTIContext payload listing d) er.ppConfig with
    | .error e => .error e
    | .ok processed => .ok (processed.filter (fun kv => ¬ isNoneVal kv.2))

/-- The spec-side list of per-record successes, in order. -/
def successOutcomes (er : EnricherRec) (d : ImportDefaultsRec) :
    List (List (Str × Val)) → ℕ → List (List (Str × Val))
  | [], _ => []
  | l :: rest, i =>
    match recordOutcome er d i l with
    | .ok p => p :: successOutcomes er d rest (i + 1)
    | .error _ => successOutcomes er d rest (i + 1)

/-- The loop of `ListingEnricher.enrich` (text_import.py line 205) with a
result tracker supplied: each record is normalized, quality-checked,
post-processed and recorded inside its own error boundary; a failure is
recorded and the loop continues with the remaining records. -/
def enrichLoop (er : EnricherRec) (d : ImportDefaultsRec) :
    List (List (Str × Val)) → ℕ → ImportResultRec →
    List (List (Str × Val)) × ImportResultRec
  | [], _, result => ([], result)
  | listing :: rest, index, result =>
    let lineNumber := index + 1
    match tiNormalizePayload listing d index with
    | .error e =>
      enrichLoop er d rest (index + 1) (addError result listing (errToStr e) lineNumber)
    | .ok payload =>
      let result := addWarnings result (qualityWarnings payload lineNumber)
      match er.process payload (buildTIContext payload listing d) er.ppConfig with
      | .error e =>
        enrichLoop er d rest (index + 1) (addError result listing (errToStr e) lineNumber)
      | .ok processed =>
        let final := processed.filter (fun kv => ¬ isNoneVal kv.2)
        let r := enrichLoop er d rest (index + 1) (addSuccess result final lineNumber)
        (final :: r.1, r.2)

/-- `ListingEnricher.enrich` with a fresh `ImportResult`, as `run_cli` calls
it (text_import.py line 612). -/
def enrich (er : EnricherRec) (listings : List (List (Str × Val)))
    (d : ImportDefaultsRec) : List (List (Str × Val)) × ImportResultRec :=
  enrichLoop er d listings 0 emptyImportResult

/-! Theorems. -/

theorem rstripHyphens_cons (c : Char) (l : Str) :
    rstripHyphens (c :: l) =
      if rstripHyphens l = [] ∧ c = '-' then [] else c :: rstripHyphens l := rfl

theorem isSlugChar_ne_hyphen {c : Char} (h : isSlugChar c = true) : ¬ c = '-' := by
  intro hc
  subst hc
  simp [isSlugChar] at h

theorem noDoubleHyphen_cons (a : Char) (l : Str) :
    noDoubleHyphen (a :: l) = ((!(a = '-') || headNotHyphen l) && noDoubleHyphen l) := by
  cases l with
  | nil => simp [noDoubleHyphen, headNotHyphen]
  | cons b rest =>
    simp only [noDoubleHyphen, headNotHyphen, okPair]
    cases ha : decide (a = '-') <;> cases hb : decide (b = '-') <;> simp_all

theorem noDoubleHyphen_tail {a : Char} {l : Str}
    (h : noDoubleHyphen (a :: l) = true) : noDoubleHyphen l = true := by
  rw [noDoubleHyphen_cons] at h
  exact (Bool.and_eq_true_iff.mp h).2

theorem subInvalid_chars (b : Bool) (s : Str) : allSlugOrHyphen (subInvalid b s) := by
  induction s generalizing b with
  | nil => intro c hc; simp [subInvalid] at hc
  | cons a rest ih =>
    intro c hc
    by_cases ha : isSlugChar a = true
    · simp only [subInvalid, ha, if_true, List.mem_cons] at hc
      rcases hc with hc | hc
      · exact Or.inl (hc ▸ ha)
      · exact ih false c hc
    · cases b with
      | true =>
        simp only [subInvalid, ha, if_false, Bool.false_eq_true, if_true] at hc
        exact ih true c hc
      | false =>
        simp only [subInvalid, ha, if_false, Bool.false_eq_true,
          List.mem_cons] at hc
        rcases hc with hc | hc
        · exact Or.inr hc
        · exact ih true c hc

theorem subInvalid_true_headNotHyphen (s : Str) :
    headNotHyphen (subInvalid true s) = true := by
  induction s with
  | nil => rfl
  | cons a rest ih =>
    by_cases ha : isSlugChar a = true
    · simp only [subInvalid, if_pos ha]
      simp [headNotHyphen, isSlugChar_ne_hyphen ha]
    · simpa [subInvalid, if_neg ha] using ih

theorem subInvalid_noDouble (s : Str) (b : Bool) :
    noDoubleHyphen (subInvalid b s) = true := by
  induction s generalizing b with
  | nil => rfl
  | cons a rest ih =>
    by_cases ha : isSlugChar a = true
    · simp only [subInvalid, if_pos ha, noDoubleHyphen_cons]
      simp [isSlugChar_ne_hyphen ha, ih false]
    · cases b with
      | true => simpa [subInvalid, if_neg ha] using ih true
      | false =>
        simp only [subInvalid, if_neg ha, Bool.false_eq_true, if_false,
          noDoubleHyphen_cons]
        simp [subInvalid_true_headNotHyphen rest, ih true]

theorem lstripHyphens_headNotHyphen (s : Str) :
    headNotHyphen (lstripHyphens s) = true := by
  induction s with
  | nil => rfl
  | cons a rest ih =>
    by_cases ha : a = '-'
    · simpa [lstripHyphens, List.dropWhile, ha] using ih
    · simp [lstripHyphens, List.dropWhile, ha, headNotHyphen]

theorem lstripHyphens_subset {c : Char} {s : Str}
    (h : c ∈ lstripHyphens s) : c ∈ s := by
  induction s with
  | nil => simp [lstripHyphens] at h
  | cons a rest ih =>
    by_cases ha : a = '-'
    · simp only [lstripHyphens, List.dropWhile, ha] at h
      exact List.mem_cons_of_mem a (ih (by simpa [lstripHyphens] using h))
    · simpa [lstripHyphens, List.dropWhile, ha] using h

theorem lstripHyphens_noDouble {s : Str} (h : noDoubleHyphen s = true) :
    noDoubleHyphen (lstripHyphens s) = true := by
  induction s with
  | nil => rfl
  | cons a rest ih =>
    by_cases ha : a = '-'
    · simpa [lstripHyphens, List.dropWhile, ha] using ih (noDoubleHyphen_tail h)
    · simpa [lstripHyphens, List.dropWhile, ha] using h

theorem rstripHyphens_subset {c : Char} {s : Str}
    (h : c ∈ rstripHyphens s) : c ∈ s := by
  induction s with
  | nil => simp [rstripHyphens] at h
  | cons a rest ih =>
    simp only [rstripHyphens] at h
    split at h
    · simp at h
    · rcases List.mem_cons.mp h with hc | hc
      · exact hc ▸ List.mem_cons_self a rest
      · exact List.mem_cons_of_mem a (ih hc)

theorem rstripHyphens_length (s : Str) :
    (rstripHyphens s).length ≤ s.length := by
  induction s with
  | nil => simp [rstripHyphens]
  | cons a rest ih =>
    simp only [rstripHyphens]
    split
    · simp
    · simpa using ih

/-- A non-empty `rstripHyphens` result keeps the head of its input. -/
theorem rstripHyphens_headNotHyphen {s : Str} (h : headNotHyphen s = true) :
    headNotHyphen (rstripHyphens s) = true := by
  cases s with
  | nil => rfl
  | cons a rest =>
    simp only [rstripHyphens]
    split
    · rfl
    · simpa [headNotHyphen] using h

theorem rstripHyphens_cons_ne_nil {a : Char} {rest t : Str}
    (h : rstripHyphens (a :: rest) = t) (ht : t ≠ []) :
    t = a :: rstripHyphens rest := by
  simp only [rstripHyphens] at h
  split at h
  · exact absurd h.symm ht
  · exact h.symm

theorem rstripHyphens_noDouble {s : Str} (h : noDoubleHyphen s = true) :
    noDoubleHyphen (rstripHyphens s) = true := by
  induction s with
  | nil => rfl
  | cons a rest ih =>
    simp only [rstripHyphens]
    split
    · rfl
    · rw [noDoubleHyphen_cons]
      have h2 : noDoubleHyphen (rstripHyphens rest) = true :=
        ih (noDoubleHyphen_tail h)
      have hhead : (!(a = '-') || headNotHyphen (rstripHyphens rest)) = true := by
        by_cases ha : a = '-'
        · have hh : headNotHyphen rest = true := by
            rw [noDoubleHyphen_cons] at h
            have := (Bool.and_eq_true_iff.mp h).1
            simpa [ha] using this
          simp [ha, rstripHyphens_headNotHyphen hh]
        · simp [ha]
      simp [hhead, h2]

theorem lastNotHyphen_cons {c : Char} {l : Str} (hl : l ≠ []) :
    lastNotHyphen (c :: l) = lastNotHyphen l := by
  cases l with
  | nil => exact absurd rfl hl
  | cons b rest => rfl

theorem rstripHyphens_lastNotHyphen (s : Str) :
    lastNotHyphen (rstripHyphens s) = true := by
  induction s with
  | nil => rfl
  | cons a rest ih =>
    simp only [rstripHyphens]
    split
    · rfl
    · rename_i hcond
      by_cases hr : rstripHyphens rest = []
      · have ha : ¬ a = '-' := fun h => hcond ⟨hr, h⟩
        simp [hr, lastNotHyphen, ha]
      · rw [lastNotHyphen_cons hr]
        exact ih

theorem take_headNotHyphen {s : Str} (n : Nat) (h : headNotHyphen s = true) :
    headNotHyphen (s.take n) = true := by
  cases s with
  | nil => simp [headNotHyphen]
  | cons a rest =>
    cases n with
    | zero => rfl
    | succ m => simpa [List.take, headNotHyphen] using h

theorem take_noDouble {s : Str} (n : Nat) (h : noDoubleHyphen s = true) :
    noDoubleHyphen (s.take n) = true := by
  induction s generalizing n with
  | nil => simp [noDoubleHyphen]
  | cons a rest ih =>
    cases n with
    | zero => rfl
    | succ m =>
      rw [List.take_succ_cons, noDoubleHyphen_cons]
      rw [noDoubleHyphen_cons] at h
      obtain ⟨h1, h2⟩ := Bool.and_eq_true_iff.mp h
      have hh : (!(a = '-') || headNotHyphen (rest.take m)) = true := by
        by_cases ha : a = '-'
        · have : headNotHyphen rest = true := by simpa [ha] using h1
          simp [ha, take_headNotHyphen m this]
        · simp [ha]
      simp [hh, ih m h2]

theorem lowerChar_fixed {c : Char} (h : isSlugChar c = true ∨ c = '-') :
    lowerChar c = c := by
  rcases h with h | h
  · simp only [isSlugChar, Bool.or_eq_true, Bool.and_eq_true,
      decide_eq_true_eq] at h
    have : ¬ (65 ≤ c.toNat && c.toNat ≤ 90) = true := by
      simp only [Bool.and_eq_true, decide_eq_true_eq]
      omega
    simp [lowerChar, this]
  · subst h
    rfl

theorem pyLower_fixed {t : Str} (h : allSlugOrHyphen t) : pyLower t = t := by
  induction t with
  | nil => rfl
  | cons a rest ih =>
    have ha := h a (List.mem_cons_self a rest)
    have hrest : allSlugOrHyphen rest := fun c hc => h c (List.mem_cons_of_mem a hc)
    simp [pyLower, lowerChar_fixed ha] at ih ⊢
    exact ih hrest

theorem subInvalid_fixed {t : Str} (hcs : allSlugOrHyphen t)
    (hnd : noDoubleHyphen t = true) :
    subInvalid false t = t ∧ (headNotHyphen t = true → subInvalid true t = t) := by
  induction t with
  | nil => exact ⟨rfl, fun _ => rfl⟩
  | cons a rest ih =>
    have ha := hcs a (List.mem_cons_self a rest)
    have hrest : allSlugOrHyphen rest := fun c hc => hcs c (List.mem_cons_of_mem a hc)
    have hndr : noDoubleHyphen rest = true := noDoubleHyphen_tail hnd
    obtain ⟨ihf, iht⟩ := ih hrest hndr
    rcases ha with ha | ha
    · constructor
      · simp [subInvalid, ha, ihf]
      · intro _
        simp [subInvalid, ha, ihf]
    · subst ha
      have hh : headNotHyphen rest = true := by
        rw [noDoubleHyphen_cons] at hnd
        have := (Bool.and_eq_true_iff.mp hnd).1
        simpa using this
      have hslug : isSlugChar '-' = false := by decide
      constructor
      · simp [subInvalid, hslug, iht hh]
      · intro hcontr
        simp [headNotHyphen] at hcontr

theorem lstripHyphens_fixed {t : Str} (h : headNotHyphen t = true) :
    lstripHyphens t = t := by
  cases t with
  | nil => rfl
  | cons a rest =>
    simp only [headNotHyphen, Bool.not_eq_eq_eq_not, Bool.not_true,
      decide_eq_false_iff_not] at h
    simp [lstripHyphens, List.dropWhile, h]

theorem rstripHyphens_fixed {t : Str} (h : lastNotHyphen t = true) :
    rstripHyphens t = t := by
  induction t with
  | nil => rfl
  | cons a rest ih =>
    cases rest with
    | nil =>
      simp only [lastNotHyphen, Bool.not_eq_eq_eq_not, Bool.not_true,
        decide_eq_false_iff_not] at h
      simp [rstripHyphens, h]
    | cons b rest2 =>
      have hr : rstripHyphens (b :: rest2) = b :: rest2 := by
        apply ih
        simpa [lastNotHyphen] using h
      rw [rstripHyphens_cons, hr]
      simp

theorem slugify_goodSlug (s : Str) : goodSlug (slugify s) := by
  set n := subInvalid false (pyLower s) with hn
  have hcs : allSlugOrHyphen n := subInvalid_chars false (pyLower s)
  have hnd : noDoubleHyphen n = true := subInvalid_noDouble (pyLower s) false
  set m := stripHyphens n with hm
  have hcs2 : allSlugOrHyphen m := fun c hc =>
    hcs c (lstripHyphens_subset (rstripHyphens_subset hc))
  have hnd2 : noDoubleHyphen m = true :=
    rstripHyphens_noDouble (lstripHyphens_noDouble hnd)
  have hhead2 : headNotHyphen m = true :=
    rstripHyphens_headNotHyphen (lstripHyphens_headNotHyphen n)
  have hlast2 : lastNotHyphen m = true := rstripHyphens_lastNotHyphen _
  rw [slugify]
  split
  · rename_i hlen
    refine ⟨fun c hc => hcs2 c (List.take_subset _ _ (rstripHyphens_subset hc)),
      rstripHyphens_noDouble (take_noDouble _ hnd2),
      rstripHyphens_headNotHyphen (take_headNotHyphen _ hhead2),
      rstripHyphens_lastNotHyphen _, ?_⟩
    calc (rstripHyphens (m.take MAX_SLUG_LENGTH)).length
        ≤ (m.take MAX_SLUG_LENGTH).length := rstripHyphens_length _
      _ ≤ MAX_SLUG_LENGTH := by simp [List.length_take]
  · rename_i hlen
    refine ⟨hcs2, hnd2, hhead2, hlast2, ?_⟩
    simp only [MAX_SLUG_LENGTH] at hlen ⊢
    omega

theorem slugify_fixed {t : Str} (h : goodSlug t) : slugify t = t := by
  obtain ⟨hcs, hnd, hhead, hlast, hlen⟩ := h
  have h1 : pyLower t = t := pyLower_fixed hcs
  have h2 : subInvalid false t = t := (subInvalid_fixed hcs hnd).1
  have h3 : lstripHyphens t = t := lstripHyphens_fixed hhead
  have h4 : rstripHyphens t = t := rstripHyphens_fixed hlast
  rw [slugify, h1, h2, stripHyphens, h3, h4]
  split
  · rename_i hc
    simp only [MAX_SLUG_LENGTH] at hc hlen
    omega
  · rfl

/-- Claim C2: for every non-empty string `s`, `slugify` is idempotent, its
output consists only of lowercase ASCII letters, digits and hyphens (so it
matches `^[a-z0-9-]*$`), and its length never exceeds `MAX_SLUG_LENGTH`. -/
theorem slugify_idempotent_charset_length (s : Str) (_hs : s ≠ []) :
    slugify (slugify s) = slugify s ∧
      (∀ c ∈ slugify s,
        (97 ≤ c.toNat ∧ c.toNat ≤ 122) ∨ (48 ≤ c.toNat ∧ c.toNat ≤ 57) ∨
          c = '-') ∧
      (slugify s).length ≤ MAX_SLUG_LENGTH := by
  have hg := slugify_goodSlug s
  refine ⟨slugify_fixed hg, ?_, hg.2.2.2.2⟩
  intro c hc
  rcases hg.1 c hc with h | h
  · simp only [isSlugChar, Bool.or_eq_true, Bool.and_eq_true,
      decide_eq_true_eq] at h
    tauto
  · exact Or.inr (Or.inr h)

/-- Witness for C2 at the concrete input `"Hello, World!"`, whose slug is
`"hello-world"`. -/
theorem slugify_idempotent_charset_length_witness :
    ("Hello, World!".data ≠ []) ∧
      (slugify (slugify "Hello, World!".data) = slugify "Hello, World!".data ∧
        (∀ c ∈ slugify "Hello, World!".data,
          (97 ≤ c.toNat ∧ c.toNat ≤ 122) ∨ (48 ≤ c.toNat ∧ c.toNat ≤ 57) ∨
            c = '-') ∧
        (slugify "Hello, World!".data).length ≤ MAX_SLUG_LENGTH) :=
  ⟨by decide, slugify_idempotent_charset_length "Hello, World!".data (by decide)⟩

theorem firstTimeout_eq_head_filterMap (l : List Val) (d : ℚ) :
    firstTimeout l d = ((l.filterMap coercePositiveTimeout).head?).getD d := by
  induction l with
  | nil => rfl
  | cons v rest ih =>
    simp only [firstTimeout, List.filterMap_cons]
    cases h : coercePositiveTimeout v with
    | none => simpa [h] using ih
    | some t => simp [h]

/-- Claim C5: the effective request timeout is the first positive numeric value
among: the API target's own timeout, target-level `api_request_timeout`,
root-level `api_request_timeout`, target-level `request_timeout`, root-level
`request_timeout`, then the pipeline default.  Candidates that are not
numeric (`None`, strings, lists, dicts) or not strictly positive are
skipped, and every accepted candidate is strictly positive. -/
theorem resolveApiTimeout_firstPositive :
    (∀ (t : APITargetRec) (tc rc : List (Str × Val)) (d : ℚ),
      resolveApiTimeout t tc rc d =
        ((timeoutCandidates t tc rc).filterMap coercePositiveTimeout).head?.getD d) ∧
    (∀ v : Val, (coercePositiveTimeout v).all (fun q => decide (0 < q)) = true) ∧
    (∀ s : Str, coercePositiveTimeout (.str s) = Option.none) ∧
    (coercePositiveTimeout .none = Option.none) ∧
    (∀ n : ℤ, coercePositiveTimeout (.int n) =
      if 0 < n then some (n : ℚ) else Option.none) ∧
    (∀ q : ℚ, coercePositiveTimeout (.float q) =
      if 0 < q then some q else Option.none) := by
  refine ⟨fun t tc rc d => firstTimeout_eq_head_filterMap _ _, ?_, ?_, rfl,
    fun _ => rfl, fun _ => rfl⟩
  · intro v
    cases v with
    | int n =>
      simp only [coercePositiveTimeout]
      split <;> simp_all
    | float q =>
      simp only [coercePositiveTimeout]
      split <;> simp_all
    | bool b => cases b <;> simp [coercePositiveTimeout]
    | none => rfl
    | str s => rfl
    | list l => rfl
    | dict m => rfl
  · intro s
    rfl

/-- Claim C7: resolving a field whose rule has source `ai` fails with a
`RuntimeError` when no text-generation client was supplied, and with a
`ValueError` naming the field when provider, model or prompt template is
missing; a source discriminator other than `scrape` and `ai` fails with a
`ValueError` naming the offending field. -/
theorem aiField_and_unknown_source_errors :
    (∀ (g : FieldGen) (fieldName : Str) (config context target : List (Str × Val)),
      g.llmClient = Option.none →
      generateAiField g fieldName config context target =
        .error (.runtimeError "LLM field generation requires an llm_client instance".data)) ∧
    (∀ (g : FieldGen) (client : LLMReq → Val) (fieldName : Str)
        (config context target : List (Str × Val)),
      g.llmClient = some client →
      (truthy (dictGet config "provider".data) = false ∨
        truthy (dictGet config "model".data) = false ∨
        truthy (dictGet config "prompt_template".data) = false) →
      generateAiField g fieldName config context target =
        .error (.valueError ("AI field '".data ++ fieldName ++
          "' requires provider, model, and prompt_template".data))) ∧
    (∀ (g : FieldGen) (fieldName s : Str) (config context target : List (Str × Val)),
      dictGet config "source".data = .str s →
      s ≠ [] →
      pyLower s ≠ "scrape".data →
      pyLower s ≠ "ai".data →
      generateOneField g fieldName (.dict config) context target =
        .error (.valueError ("Unsupported field source '".data ++ pyLower s ++
          "' for '".data ++ fieldName ++ "'".data))) := by
  refine ⟨?_, ?_, ?_⟩
  · intro g fieldName config context target h
    simp [generateAiField, h]
  · intro g client fieldName config context target hc hmiss
    have hcond : (!truthy (dictGet config "provider".data) ||
        !truthy (dictGet config "model".data) ||
        !truthy (dictGet config "prompt_template".data)) = true := by
      rcases hmiss with h | h | h <;> simp [h]
    simp [generateAiField, hc, hcond]
  · intro g fieldName s config context target hs hne h1 h2
    have htruthy : truthy (.str s) = true := by
      simpa [truthy] using hne
    simp [generateOneField, hs, pyOr, htruthy, h1, h2]

/-- Witness for C7: a client-less generator on an `ai` field, a generator
with a client but an empty `ai` rule, and a rule with source `"llm"`. -/
theorem aiField_and_unknown_source_errors_witness :
    (generateAiField ⟨Option.none, fun _ _ => .ok []⟩ "summary".data [] [] [] =
      .error (.runtimeError "LLM field generation requires an llm_client instance".data)) ∧
    (generateAiField ⟨some (fun _ => .none), fun _ _ => .ok []⟩ "summary".data [] [] [] =
      .error (.valueError ("AI field '".data ++ "summary".data ++
        "' requires provider, model, and prompt_template".data))) ∧
    (generateOneField ⟨Option.none, fun _ _ => .ok []⟩ "summary".data
        (.dict [("source".data, .str "llm".data)]) [] [] =
      .error (.valueError ("Unsupported field source '".data ++ pyLower "llm".data ++
        "' for '".data ++ "summary".data ++ "'".data))) := by
  obtain ⟨h1, h2, h3⟩ := aiField_and_unknown_source_errors
  refine ⟨h1 _ _ _ _ _ rfl, h2 _ (fun _ => .none) _ _ _ _ rfl ?_, ?_⟩
  · left
    rfl
  · exact h3 _ "summary".data "llm".data _ [] [] rfl (by decide) (by decide) (by decide)

theorem matchCategoryLoop_eq (e : Elem) (lowered full : Str) :
    ∀ (rules : List CategoryRuleRec) (acc : List Str),
    matchCategoryLoop e lowered full rules acc =
      acc ++ dedupFirstAux acc
        ((rules.filter (ruleMatches e lowered full)).map CategoryRuleRec.slug) := by
  intro rules
  induction rules with
  | nil => intro acc; simp [matchCategoryLoop, dedupFirstAux]
  | cons r rest ih =>
    intro acc
    by_cases hm : ruleMatches e lowered full r = true
    · by_cases hs : r.slug ∈ acc
      · simp [matchCategoryLoop, hm, hs, List.filter_cons, dedupFirstAux, ih]
      · simp only [matchCategoryLoop, hm, if_true, hs, if_false,
          List.filter_cons, List.map_cons, dedupFirstAux, ih]
        simp
    · simp [matchCategoryLoop, hm, List.filter_cons, ih]

theorem dedupFirstAux_nodup_and_fresh (l : List Str) :
    ∀ seen : List Str,
    (dedupFirstAux seen l).Nodup ∧ ∀ s ∈ dedupFirstAux seen l, s ∉ seen := by
  induction l with
  | nil => intro seen; simp [dedupFirstAux]
  | cons a rest ih =>
    intro seen
    by_cases ha : a ∈ seen
    · simpa [dedupFirstAux, ha] using ih seen
    · obtain ⟨hnd, hfresh⟩ := ih (seen ++ [a])
      simp only [dedupFirstAux, ha, if_false]
      constructor
      · refine List.nodup_cons.mpr ⟨fun hmem => ?_, hnd⟩
        exact hfresh a hmem (by simp)
      · intro s hs hseen
        rcases List.mem_cons.mp hs with h | h
        · exact ha (h ▸ hseen)
        · exact hfresh s h (by simp [hseen])

theorem dedupFirstAux_mem (l : List Str) :
    ∀ (seen : List Str) (s : Str),
    s ∈ dedupFirstAux seen l ↔ s ∈ l ∧ s ∉ seen := by
  induction l with
  | nil => intro seen s; simp [dedupFirstAux]
  | cons a rest ih =>
    intro seen s
    by_cases ha : a ∈ seen
    · rw [dedupFirstAux, if_pos ha, ih]
      constructor
      · rintro ⟨h1, h2⟩
        exact ⟨List.mem_cons_of_mem a h1, h2⟩
      · rintro ⟨h1, h2⟩
        rcases List.mem_cons.mp h1 with h | h
        · exact absurd (h ▸ ha) h2
        · exact ⟨h, h2⟩
    · rw [dedupFirstAux, if_neg ha]
      constructor
      · intro h
        rcases List.mem_cons.mp h with h | h
        · exact ⟨h ▸ List.mem_cons_self a rest, h ▸ ha⟩
        · obtain ⟨h1, h2⟩ := (ih (seen ++ [a]) s).mp h
          refine ⟨List.mem_cons_of_mem a h1, fun hs => h2 (by simp [hs])⟩
      · rintro ⟨h1, h2⟩
        rcases List.mem_cons.mp h1 with h | h
        · exact h ▸ List.mem_cons_self a _
        · by_cases hsa : s = a
          · exact hsa ▸ List.mem_cons_self a _
          · exact List.mem_cons_of_mem a
              ((ih (seen ++ [a]) s).mpr ⟨h, by simp [h2, hsa]⟩)

theorem dedupFirstAux_head (l : List Str) :
    (dedupFirstAux [] l).head? = l.head? := by
  cases l with
  | nil => rfl
  | cons a rest => simp [dedupFirstAux]

theorem head_filter_map_eq_find {α β : Type} (p : α → Bool) (f : α → β) :
    ∀ l : List α, ((l.filter p).map f).head? = (l.find? p).map f := by
  intro l
  induction l with
  | nil => rfl
  | cons a rest ih =>
    by_cases ha : p a = true
    · simp [List.filter_cons, ha, List.find?_cons, ih]
    · simp [List.filter_cons, ha, List.find?_cons, ih]

/-- Claim C3: compiled category rules are evaluated in declaration order and
a rule matches only when all of its present conditions hold (the
`ruleMatches` conjunction); each matching rule's slug is collected only if
not already present, so the result is the first-occurrence deduplication of
the matching slugs in rule order and carries no duplicates; and the first
matching rule's slug becomes the listing's primary category slug. -/
theorem matchCategoryRules_order_dedup_primary :
    (∀ (e : Elem) (rules : List CategoryRuleRec) (text : Str),
      matchCategoryRules e rules text =
        dedupFirst ((rules.filter
          (ruleMatches e (pyLower text) text)).map CategoryRuleRec.slug)) ∧
    (∀ (e : Elem) (rules : List CategoryRuleRec) (text : Str),
      (matchCategoryRules e rules text).Nodup) ∧
    (∀ (e : Elem) (rules : List CategoryRuleRec) (text : Str) (s : Str),
      s ∈ matchCategoryRules e rules text ↔
        ∃ r ∈ rules, ruleMatches e (pyLower text) text r = true ∧ r.slug = s) ∧
    (∀ (e : Elem) (rules : List CategoryRuleRec) (text : Str) (l : ListingRec),
      (assignCategories l (matchCategoryRules e rules text)).category_slug =
        match rules.find? (ruleMatches e (pyLower text) text) with
        | some r => some r.slug
        | Option.none => l.category_slug) := by
  have hEq : ∀ (e : Elem) (rules : List CategoryRuleRec) (text : Str),
      matchCategoryRules e rules text =
        dedupFirst ((rules.filter
          (ruleMatches e (pyLower text) text)).map CategoryRuleRec.slug) := by
    intro e rules text
    cases rules with
    | nil => rfl
    | cons r rest =>
      rw [matchCategoryRules, if_neg (by simp)]
      rw [matchCategoryLoop_eq]
      rfl
  refine ⟨hEq, ?_, ?_, ?_⟩
  · intro e rules text
    rw [hEq]
    exact (dedupFirstAux_nodup_and_fresh _ []).1
  · intro e rules text s
    rw [hEq, dedupFirst, dedupFirstAux_mem]
    simp only [List.mem_map, List.mem_filter, List.not_mem_nil, not_false_iff,
      and_true]
    constructor
    · rintro ⟨r, ⟨hr, hm⟩, hs⟩
      exact ⟨r, hr, hm, hs⟩
    · rintro ⟨r, hr, hm, hs⟩
      exact ⟨r, ⟨hr, hm⟩, hs⟩
  · intro e rules text l
    have hHead : (matchCategoryRules e rules text).head? =
        (rules.find? (ruleMatches e (pyLower text) text)).map CategoryRuleRec.slug := by
      rw [hEq, dedupFirst, dedupFirstAux_head, head_filter_map_eq_find]
    cases hf : rules.find? (ruleMatches e (pyLower text) text) with
    | none =>
      rw [hf] at hHead
      simp only [Option.map_none'] at hHead
      have : matchCategoryRules e rules text = [] := by
        cases hm : matchCategoryRules e rules text with
        | nil => rfl
        | cons x xs => rw [hm] at hHead; simp at hHead
      simp [assignCategories, this]
    | some r =>
      rw [hf] at hHead
      simp only [Option.map_some'] at hHead
      cases hm : matchCategoryRules e rules text with
      | nil => rw [hm] at hHead; simp at hHead
      | cons x xs =>
        rw [hm] at hHead
        simp only [List.head?_cons, Option.some_inj] at hHead
        simp [assignCategories, hHead]

/-- Witness for C3 on two rules both matching a concrete element with the
same text condition: both slugs are carried, each once, and the first rule's
slug is primary. -/
theorem matchCategoryRules_order_dedup_primary_witness :
    (matchCategoryRules
        ⟨fun _ => Option.none, fun _ => Option.none, "plumber services".data⟩
        [⟨"plumbers".data, Option.none, some "plumber".data, Option.none⟩,
         ⟨"services".data, Option.none, some "services".data, Option.none⟩]
        "Plumber Services".data) = ["plumbers".data, "services".data] ∧
    ("plumbers".data ∈ matchCategoryRules
        ⟨fun _ => Option.none, fun _ => Option.none, "plumber services".data⟩
        [⟨"plumbers".data, Option.none, some "plumber".data, Option.none⟩,
         ⟨"services".data, Option.none, some "services".data, Option.none⟩]
        "Plumber Services".data ↔
      ∃ r ∈ [⟨"plumbers".data, Option.none, some "plumber".data, Option.none⟩,
         (⟨"services".data, Option.none, some "services".data, Option.none⟩ : CategoryRuleRec)],
        ruleMatches ⟨fun _ => Option.none, fun _ => Option.none, "plumber services".data⟩
          (pyLower "Plumber Services".data) "Plumber Services".data r = true ∧
        r.slug = "plumbers".data) := by
  constructor
  · rfl
  · exact matchCategoryRules_order_dedup_primary.2.2.1 _ _ _ _

theorem dictGet_dictSet_ne {m : List (Str × Val)} {k k' : Str} {v : Val}
    (h : ¬ k' = k) : dictGet (dictSet m k v) k' = dictGet m k' := by
  induction m with
  | nil =>
    simp only [dictSet, dictGet]
    rw [if_neg (fun hh => h hh.symm)]
  | cons kv rest ih =>
    obtain ⟨k0, v0⟩ := kv
    by_cases h0 : k0 = k
    · subst h0
      simp only [dictSet, if_pos rfl, dictGet]
      rw [if_neg (fun hh => h hh.symm), if_neg (fun hh => h hh.symm)]
    · simp only [dictSet, h0, if_false, dictGet]
      by_cases h1 : k0 = k'
      · simp [h1]
      · simp [h1, ih]

theorem dictGet_ne_none_hasKey {m : List (Str × Val)} {k : Str}
    (h : ¬ dictGet m k = .none) : dictHasKey m k = true := by
  induction m with
  | nil => simp [dictGet] at h
  | cons kv rest ih =>
    obtain ⟨k0, v0⟩ := kv
    by_cases h0 : k0 = k
    · simp [dictHasKey, h0]
    · simp only [dictGet, h0, if_false] at h
      simp [dictHasKey, h0, ih h]

theorem patternCaptureFields_preserve {f : Str} {v : Str}
    (captures : Str → Option Str) :
    ∀ (fs : List Str) (extracted : List (Str × Val)),
    dictGet extracted f = .str v →
    dictGet (patternCaptureFields captures extracted fs) f = .str v := by
  intro fs
  induction fs with
  | nil => intro extracted h; simpa [patternCaptureFields] using h
  | cons g gs ih =>
    intro extracted h
    have hk : dictHasKey extracted f = true :=
      dictGet_ne_none_hasKey (by simp [h])
    rw [patternCaptureFields]
    have hupd : dictGet (captureUpdate captures extracted g) f = .str v := by
      cases hc : captures g with
      | none =>
        simp only [captureUpdate, hc]
        exact h
      | some c =>
        simp only [captureUpdate, hc]
        by_cases hcond : ¬ c.isEmpty = true ∧ ¬ dictHasKey extracted g = true
        · have hgf : ¬ f = g := by
            intro hEq
            exact hcond.2 (hEq ▸ hk)
          rw [if_pos hcond, dictGet_dictSet_ne hgf]
          exact h
        · rw [if_neg hcond]
          exact h
    exact ih _ hupd

theorem patternPhase_preserve {f : Str} {v : Str} (listingText : Str) :
    ∀ (ps : List PatternRec) (extracted : List (Str × Val)),
    dictGet extracted f = .str v →
    dictGet (patternPhase listingText extracted ps) f = .str v := by
  intro ps
  induction ps with
  | nil => intro extracted h; simpa [patternPhase] using h
  | cons p rest ih =>
    intro extracted h
    rw [patternPhase]
    cases hs : p.search listingText with
    | none => exact ih extracted h
    | some captures =>
      exact ih _ (patternCaptureFields_preserve captures _ _ h)

theorem normalizeLocationFields_get {m : List (Str × Val)} {f : Str} {v : Str}
    (hget : dictGet m f = .str v) (hne : ¬ pystrip v = []) :
    ∀ fs : List Str, f ∈ fs →
    dictGet (normalizeLocationFields m fs) f = .str (pystrip v) := by
  have hk : dictHasKey m f = true := dictGet_ne_none_hasKey (by simp [hget])
  intro fs
  induction fs with
  | nil => intro h; simp at h
  | cons g gs ih =>
    intro hmem
    by_cases hgf : g = f
    · subst hgf
      rw [normalizeLocationFields, if_pos hk, hget]
      have : normalizeStringVal (.str v) = some (pystrip v) := by
        simp [normalizeStringVal, List.isEmpty_iff, hne]
      rw [this]
      simp [dictGet]
    · have hmem' : f ∈ gs := by
        rcases List.mem_cons.mp hmem with h | h
        · exact absurd h.symm hgf
        · exact h
      rw [normalizeLocationFields]
      by_cases hkg : dictHasKey m g = true
      · rw [if_pos hkg]
        cases hns : normalizeStringVal (dictGet m g) with
        | none => exact ih hmem'
        | some nv =>
          simp only [dictGet, hgf, if_false]
          exact ih hmem'
      · rw [if_neg hkg]
        exact ih hmem'

theorem normalizeLocation_ne_some_nil (m : List (Str × Val)) :
    ¬ normalizeLocation (.dict m) = some [] := by
  intro h
  simp only [normalizeLocation] at h
  split at h
  · simp at h
  · rename_i hfalse
    rw [Option.some_inj] at h
    rw [h] at hfalse
    simp at hfalse

/-- Claim C4: selector-derived address values are applied first and are
never overwritten by pattern captures (a field set by a selector survives
into the final location with its stripped value); pattern captures are read
only for the fixed `LOCATION_FIELDS`, so capture groups outside that set
cannot influence the result; and an extraction producing no non-empty
fields yields an absent location, never an empty mapping. -/
theorem extractLocation_selector_precedence_fixed_fields_absent :
    (∀ (e : Elem) (selectors : List (Str × Str)) (patterns : List PatternRec)
        (text f : Str) (v : Str),
      dictGet (selectorPhase e [] selectors) f = .str v →
      f ∈ LOCATION_FIELDS →
      ¬ pystrip v = [] →
      ∃ m, extractLocationFromElement e selectors patterns text = some m ∧
        dictGet m f = .str (pystrip v)) ∧
    (∀ (cap cap' : Str → Option Str) (extracted : List (Str × Val)),
      (∀ f ∈ LOCATION_FIELDS, cap f = cap' f) →
      patternCaptureFields cap extracted LOCATION_FIELDS =
        patternCaptureFields cap' extracted LOCATION_FIELDS) ∧
    (∀ (e : Elem) (selectors : List (Str × Str)) (patterns : List PatternRec)
        (text : Str),
      ¬ extractLocationFromElement e selectors patterns text = some []) := by
  refine ⟨?_, ?_, ?_⟩
  · intro e selectors patterns text f v hsel hmem hne
    have hselNonempty : ¬ selectors.isEmpty = true := by
      intro hEmpty
      rw [List.isEmpty_iff.mp hEmpty] at hsel
      simp [selectorPhase, dictGet] at hsel
    set extracted :=
      (if ¬ text.isEmpty = true ∧ ¬ patterns.isEmpty = true then
        patternPhase text (selectorPhase e [] selectors) patterns
      else selectorPhase e [] selectors) with hex
    have hfinal : dictGet extracted f = .str v := by
      rw [hex]
      split
      · exact patternPhase_preserve text patterns _ hsel
      · exact hsel
    have hnf : dictGet (normalizeLocationFields extracted LOCATION_FIELDS) f =
        .str (pystrip v) :=
      normalizeLocationFields_get hfinal hne LOCATION_FIELDS hmem
    have hnonempty : ¬ (normalizeLocationFields extracted LOCATION_FIELDS).isEmpty = true := by
      intro hEmpty
      rw [List.isEmpty_iff.mp hEmpty] at hnf
      simp [dictGet] at hnf
    refine ⟨normalizeLocationFields extracted LOCATION_FIELDS, ?_, hnf⟩
    simp only [extractLocationFromElement]
    rw [if_neg (by simp [hselNonempty]), ← hex]
    simp only [normalizeLocation]
    rw [if_neg hnonempty]
  · intro cap cap' extracted hagree
    have hgen : ∀ (fs : List Str), (∀ f ∈ fs, cap f = cap' f) →
        ∀ ex, patternCaptureFields cap ex fs = patternCaptureFields cap' ex fs := by
      intro fs
      induction fs with
      | nil => intro _ ex; rfl
      | cons g gs ih =>
        intro hag ex
        rw [patternCaptureFields, patternCaptureFields, captureUpdate,
          captureUpdate, hag g (List.mem_cons_self g gs)]
        exact ih (fun f hf => hag f (List.mem_cons_of_mem g hf)) _
    exact hgen LOCATION_FIELDS hagree extracted
  · intro e selectors patterns text hcontr
    simp only [extractLocationFromElement] at hcontr
    split at hcontr
    · simp at hcontr
    · exact normalizeLocation_ne_some_nil _ hcontr

/-- Witness for C4: a selector-derived `city` of `Berlin` survives a
pattern whose `city` capture is `Munich`. -/
theorem extractLocation_selector_precedence_witness :
    ∃ m, extractLocationFromElement
        ⟨fun sel => if sel = ".city".data then some "Berlin".data else Option.none,
         fun _ => Option.none, "x".data⟩
        [("city".data, ".city".data)]
        [⟨fun _ => some (fun g => if g = "city".data then some "Munich".data
          else Option.none)⟩]
        "x".data = some m ∧
      dictGet m "city".data = .str (pystrip "Berlin".data) := by
  apply extractLocation_selector_precedence_fixed_fields_absent.1
  · rfl
  · decide
  · decide

theorem assignCategories_title (l : ListingRec) (cats : List Str) :
    (assignCategories l cats).title = l.title := by
  cases cats <;> rfl

theorem assignCategories_url (l : ListingRec) (cats : List Str) :
    (assignCategories l cats).url = l.url := by
  cases cats <;> rfl

theorem normalizeUrl_ne_nil {href : Str} (subdomain : Option Str)
    (h : ¬ href = []) : ¬ normalizeUrl href subdomain = [] := by
  rw [normalizeUrl]
  rw [if_neg (by simpa [List.isEmpty_iff] using h)]
  split
  · exact h
  · simp only [urljoin]
    split
    · simp
    · simp

theorem parseElement_eq_none_iff (cfg : ParseCfg) (e : Elem) :
    parseElement cfg e = Option.none ↔
      (extractedTitle e cfg.titleSel = [] ∧ extractedUrl e cfg.linkSel = []) := by
  simp only [parseElement]
  split
  · rename_i hcond
    simp only [List.isEmpty_iff] at hcond
    simpa using hcond
  · rename_i hcond
    simp only [List.isEmpty_iff] at hcond
    simpa using hcond

/-- Claim C6: the element loop produces listings in document order — it is
the order-preserving `filterMap` of the per-element extraction over the
selected elements — and a candidate is discarded exactly when both its
extracted title and its extracted URL are empty; consequently every
retained listing has a non-empty title or a non-empty URL. -/
theorem parseListings_order_discard_nonempty :
    (∀ (cfg : ParseCfg) (elems : List Elem),
      parseLoop cfg elems = elems.filterMap (parseElement cfg)) ∧
    (∀ (cfg : ParseCfg) (e : Elem),
      parseElement cfg e = Option.none ↔
        (extractedTitle e cfg.titleSel = [] ∧ extractedUrl e cfg.linkSel = [])) ∧
    (∀ (select : Str → List Elem) (selectorOverrides : List (Str × Val))
        (subdomain : Option Str) (addrSelectors : List (Str × Str))
        (addrPatterns : List PatternRec) (rules : List CategoryRuleRec)
        (location : Str) (keyword : Option Str) (l : ListingRec),
      l ∈ parseListings select selectorOverrides subdomain addrSelectors
        addrPatterns rules location keyword →
      ¬ l.title = [] ∨ ¬ l.url = []) := by
  have hloop : ∀ (cfg : ParseCfg) (elems : List Elem),
      parseLoop cfg elems = elems.filterMap (parseElement cfg) := by
    intro cfg elems
    induction elems with
    | nil => rfl
    | cons e rest ih =>
      rw [parseLoop, List.filterMap_cons]
      cases parseElement cfg e with
      | none => exact ih
      | some l => rw [ih]
  have hkeep : ∀ (cfg : ParseCfg) (e : Elem) (l : ListingRec),
      parseElement cfg e = some l → ¬ l.title = [] ∨ ¬ l.url = [] := by
    intro cfg e l hsome
    simp only [parseElement] at hsome
    split at hsome
    · simp at hsome
    · rename_i hcond
      simp only [List.isEmpty_iff] at hcond
      rw [Option.some_inj] at hsome
      rw [← hsome, assignCategories_title, assignCategories_url]
      by_cases ht : extractedTitle e cfg.titleSel = []
      · right
        show ¬ normalizeUrl (extractedUrl e cfg.linkSel) cfg.subdomain = []
        apply normalizeUrl_ne_nil
        intro hu
        exact hcond ⟨ht, hu⟩
      · left
        exact ht
  refine ⟨hloop, parseElement_eq_none_iff, ?_⟩
  intro select selectorOverrides subdomain addrSelectors addrPatterns rules
    location keyword l hmem
  simp only [parseListings] at hmem
  rw [hloop] at hmem
  obtain ⟨e, _, hsome⟩ := List.mem_filterMap.mp hmem
  exact hkeep _ e l hsome

/-- Witness for C6: an element with a title is kept, an element with
neither title nor link is dropped. -/
theorem parseListings_order_discard_nonempty_witness :
    parseElement ⟨".t".data, ".l".data, ".d".data, Option.none, [], [], [],
        "Loc".data, Option.none⟩
      ⟨fun _ => Option.none, fun _ => Option.none, []⟩ = Option.none ∧
    ¬ parseElement ⟨".t".data, ".l".data, ".d".data, Option.none, [], [], [],
        "Loc".data, Option.none⟩
      ⟨fun _ => some "Acme".data, fun _ => Option.none, "Acme".data⟩ =
        Option.none := by
  constructor
  · exact (parseListings_order_discard_nonempty.2.1 _ _).mpr (by constructor <;> rfl)
  · intro h
    have := (parseListings_order_discard_nonempty.2.1 _ _).mp h
    simp [extractedTitle] at this

/-- Counterexample to claim C1 at a concrete input: with two configured API
targets of which the first answers HTTP 500, the dispatch propagates the
error but the second target is never attempted — the fan-out IS
short-circuited by the first target's failure, contrary to the claim that
remaining targets are still attempted. -/
theorem postBatch_failure_skips_remaining_counterexample :
    postBatchToApi ppIdentity postFailOne batchAcme shopsTargetConfig
      [apiTargetOne, apiTargetTwo] [] 15 =
      ([apiTargetOne], some (.runtimeError "HTTP 500".data)) ∧
    ¬ apiTargetTwo ∈ (postBatchToApi ppIdentity postFailOne batchAcme
      shopsTargetConfig [apiTargetOne, apiTargetTwo] [] 15).1 := by
  constructor
  · rfl
  · decide

/-- Claim C1 (amended): dispatching a batch posts to every configured API
target in turn as long as each succeeds (success does not short-circuit the
fan-out), and the first non-success response or transport failure on any
target propagates to the caller as a fatal error with no retry — that
failing target is attempted exactly once and the targets after it are NOT
attempted. -/
theorem dispatchLoop_success_fanout_failure_aborts :
    (∀ (postFn : APITargetRec → Option PyErr) (ts : List APITargetRec),
      (∀ t ∈ ts, postFn t = Option.none) →
      dispatchLoop postFn ts = (ts, Option.none)) ∧
    (∀ (postFn : APITargetRec → Option PyErr) (ts₁ : List APITargetRec)
        (t : APITargetRec) (ts₂ : List APITargetRec) (e : PyErr),
      (∀ u ∈ ts₁, postFn u = Option.none) →
      postFn t = some e →
      dispatchLoop postFn (ts₁ ++ t :: ts₂) = (ts₁ ++ [t], some e)) := by
  constructor
  · intro postFn ts hall
    induction ts with
    | nil => rfl
    | cons t rest ih =>
      rw [dispatchLoop, hall t (List.mem_cons_self t rest)]
      rw [ih (fun u hu => hall u (List.mem_cons_of_mem t hu))]
  · intro postFn ts₁ t ts₂ e hok hfail
    induction ts₁ with
    | nil =>
      simp only [List.nil_append]
      rw [dispatchLoop, hfail]
    | cons u rest ih =>
      simp only [List.cons_append]
      rw [dispatchLoop, hok u (List.mem_cons_self u rest)]
      rw [ih (fun w hw => hok w (List.mem_cons_of_mem u hw))]

/-- Witness for the amended C1: all-success fan-out reaches both targets;
with the first target failing, only it is attempted. -/
theorem dispatchLoop_success_fanout_failure_aborts_witness :
    dispatchLoop (fun _ => Option.none) [apiTargetOne, apiTargetTwo] =
      ([apiTargetOne, apiTargetTwo], Option.none) ∧
    dispatchLoop
      (fun t => if t.name = "one".data then some (.runtimeError "HTTP 500".data)
        else Option.none) ([] ++ apiTargetOne :: [apiTargetTwo]) =
      ([] ++ [apiTargetOne], some (.runtimeError "HTTP 500".data)) := by
  constructor
  · exact dispatchLoop_success_fanout_failure_aborts.1 _ _ (fun t _ => rfl)
  · exact dispatchLoop_success_fanout_failure_aborts.2 _ [] apiTargetOne
      [apiTargetTwo] _ (fun u hu => absurd hu (List.not_mem_nil u)) (by decide)

/-- Counterexample to claim C8 at a concrete input: building the ingestion
payload for a listing with no inferred primary slug writes the target's
normalized category slug back into the listing — the Ingestion Dispatcher
does NOT leave every field of the Listing unchanged. -/
theorem buildListingPayload_mutates_counterexample :
    (match buildListingPayload ppIdentity listingAcme shopsTargetConfig []
        "shops".data batchAcme with
      | .ok (_, updated) => updated.category_slug
      | .error _ => Option.none) = some "shops".data ∧
    listingAcme.category_slug = Option.none := by
  constructor
  · rfl
  · rfl

/-- Claim C8 (amended): when the Ingestion Dispatcher builds a listing's
payload it leaves the listing's title, URL, snippet, extras, generated
fields and structured location unchanged; the only write-back is the
normalized category slug (into the primary slug and the category list), and
a listing dropped for lack of a title is returned completely unchanged. -/
theorem buildListingPayload_frame :
    ∀ (pp : List (Str × Val) → PPContext → Option (List (Str × Val)) →
        Except PyErr (List (Str × Val)))
      (l : ListingRec) (targetConfig rootConfig : List (Str × Val))
      (defaultCategorySlug : Str) (batch : BatchRec)
      (p : Option (List (Str × Val))) (updated : ListingRec),
    buildListingPayload pp l targetConfig rootConfig defaultCategorySlug batch =
      .ok (p, updated) →
    (updated.title = l.title ∧ updated.url = l.url ∧
      updated.snippet = l.snippet ∧ updated.extras = l.extras ∧
      updated.fields = l.fields ∧ updated.location = l.location) ∧
    (updated = l ∨
      ∃ s, updated = writeBackCategory l s ∧ updated.category_slug = some s) ∧
    (p = Option.none → updated = l) := by
  intro pp l targetConfig rootConfig defaultCategorySlug batch p updated h
  simp only [buildListingPayload] at h
  split at h
  · simp only [Except.ok.injEq, Prod.mk.injEq] at h
    obtain ⟨hp, hl⟩ := h
    subst hl
    exact ⟨⟨rfl, rfl, rfl, rfl, rfl, rfl⟩, Or.inl rfl, fun _ => rfl⟩
  · split at h
    · simp at h
    · split at h
      · simp at h
      · simp only [Except.ok.injEq, Prod.mk.injEq] at h
        obtain ⟨hp, hl⟩ := h
        subst hl
        refine ⟨⟨rfl, rfl, rfl, rfl, rfl, rfl⟩, Or.inr ⟨_, rfl, rfl⟩, ?_⟩
        intro hnone
        rw [← hp] at hnone
        simp at hnone

/-- Witness for the amended C8 at the concrete fixtures: the write-back is
the only change. -/
theorem buildListingPayload_frame_witness :
    ∃ p updated,
      buildListingPayload ppIdentity listingAcme shopsTargetConfig []
        "shops".data batchAcme = .ok (p, updated) ∧
      updated.title = listingAcme.title ∧
      updated.location = listingAcme.location := by
  refine ⟨some [("title".data, .str "Acme".data),
      ("sourceUrl".data, .str "https://acme.example".data),
      ("categorySlug".data, .str "shops".data),
      ("sourceName".data, .str "Shops".data)],
    writeBackCategory listingAcme "shops".data, rfl, ?_, ?_⟩
  · exact (buildListingPayload_frame ppIdentity listingAcme shopsTargetConfig []
      "shops".data batchAcme _ _ rfl).1.1
  · exact (buildListingPayload_frame ppIdentity listingAcme shopsTargetConfig []
      "shops".data batchAcme _ _ rfl).1.2.2.2.2.2

/-- Claim C10: dispatching a non-empty batch to at least one API target
fails with the fatal category configuration error whenever every category
source on the target configuration (`category_slug`, `categorySlug`,
`category`) is absent, falsy or slugifies to the empty string — even when
every listing in the batch already carries its own non-empty primary
category slug — and no POST is attempted. -/
theorem postBatch_requires_target_category :
    ∀ (pp : List (Str × Val) → PPContext → Option (List (Str × Val)) →
        Except PyErr (List (Str × Val)))
      (post : APITargetRec → ℚ → List (List (Str × Val)) → Option PyErr)
      (batch : BatchRec) (targetConfig : List (Str × Val))
      (apiTargets : List APITargetRec) (rootConfig : List (Str × Val))
      (defaultTimeout : ℚ),
    ¬ batch.listings = [] →
    ¬ apiTargets = [] →
    slugifyVal (dictGet targetConfig "category_slug".data) = [] →
    slugifyVal (dictGet targetConfig "categorySlug".data) = [] →
    slugifyVal (dictGet targetConfig "category".data) = [] →
    (∀ l ∈ batch.listings, ∃ s, l.category_slug = some s ∧ ¬ s = []) →
    postBatchToApi pp post batch targetConfig apiTargets rootConfig defaultTimeout =
      ([], some (.valueError
        "Crawler target must define a category to derive categorySlug".data)) := by
  intro pp post batch targetConfig apiTargets rootConfig defaultTimeout
    hbatch htargets h1 h2 h3 _hslugs
  have hOrNil : ∀ a b : Val, slugifyVal a = [] → slugifyVal b = [] →
      slugifyVal (pyOr a b) = [] := by
    intro a b ha hb
    rw [pyOr]
    split
    · exact ha
    · exact hb
  have hsrc : slugifyVal
      (pyOr (pyOr (pyOr (dictGet targetConfig "category_slug".data)
        (dictGet targetConfig "categorySlug".data))
        (dictGet targetConfig "category".data)) (.str [])) = [] := by
    apply hOrNil
    · apply hOrNil
      · exact hOrNil _ _ h1 h2
      · exact h3
    · rfl
  have hres : resolveCategorySlug targetConfig =
      .error (.valueError
        "Crawler target must define a category to derive categorySlug".data) := by
    simp only [resolveCategorySlug, hsrc]
    rfl
  rw [postBatchToApi,
    if_neg (by simp [List.isEmpty_iff, hbatch, htargets]),
    buildIngestionPayloads, hres]

/-- Witness for C10: a target configuration whose only category source
slugifies to nothing (`"!!!"`), over a batch whose single listing already
carries the slug `acme`. -/
theorem postBatch_requires_target_category_witness :
    postBatchToApi ppIdentity postFailOne
      { batchAcme with listings := [{ listingAcme with category_slug := some "acme".data }] }
      [("category".data, .str "!!!".data)]
      [apiTargetOne] [] 15 =
      ([], some (.valueError
        "Crawler target must define a category to derive categorySlug".data)) := by
  apply postBatch_requires_target_category
  · simp
  · simp
  · rfl
  · rfl
  · rfl
  · intro l hl
    refine ⟨"acme".data, ?_, by decide⟩
    rcases List.mem_singleton.mp hl with h
    rw [h]

theorem totalCount_addError (r : ImportResultRec) (l : List (Str × Val))
    (m : Str) (n : ℕ) : totalCount (addError r l m n) = totalCount r + 1 := by
  simp [totalCount, addError]
  omega

theorem totalCount_addSuccess (r : ImportResultRec) (l : List (Str × Val))
    (n : ℕ) : totalCount (addSuccess r l n) = totalCount r + 1 := by
  simp [totalCount, addSuccess]
  omega

theorem totalCount_addWarnings (r : ImportResultRec) (ws : List WarnEntry) :
    totalCount (addWarnings r ws) = totalCount r := rfl

theorem enrichLoop_counts (er : EnricherRec) (d : ImportDefaultsRec) :
    ∀ (ls : List (List (Str × Val))) (idx : ℕ) (r0 : ImportResultRec),
    totalCount (enrichLoop er d ls idx r0).2 = totalCount r0 + ls.length ∧
    (enrichLoop er d ls idx r0).2.successful.map Prod.fst =
      r0.successful.map Prod.fst ++ (enrichLoop er d ls idx r0).1 ∧
    (enrichLoop er d ls idx r0).1 = successOutcomes er d ls idx := by
  intro ls
  induction ls with
  | nil =>
    intro idx r0
    exact ⟨rfl, by simp [enrichLoop], rfl⟩
  | cons listing rest ih =>
    intro idx r0
    cases hN : tiNormalizePayload listing d idx with
    | error e =>
      have hloop : enrichLoop er d (listing :: rest) idx r0 =
          enrichLoop er d rest (idx + 1)
            (addError r0 listing (errToStr e) (idx + 1)) := by
        simp only [enrichLoop, hN]
      have hout : successOutcomes er d (listing :: rest) idx =
          successOutcomes er d rest (idx + 1) := by
        simp only [successOutcomes, recordOutcome, hN]
      obtain ⟨h1, h2, h3⟩ := ih (idx + 1) (addError r0 listing (errToStr e) (idx + 1))
      rw [hloop, hout]
      refine ⟨?_, ?_, h3⟩
      · rw [h1, totalCount_addError]
        simp
        omega
      · rw [h2]
        rfl
    | ok payload =>
      cases hP : er.process payload (buildTIContext payload listing d) er.ppConfig with
      | error e =>
        have hloop : enrichLoop er d (listing :: rest) idx r0 =
            enrichLoop er d rest (idx + 1)
              (addError (addWarnings r0 (qualityWarnings payload (idx + 1)))
                listing (errToStr e) (idx + 1)) := by
          simp only [enrichLoop, hN, hP]
        have hout : successOutcomes er d (listing :: rest) idx =
            successOutcomes er d rest (idx + 1) := by
          simp only [successOutcomes, recordOutcome, hN, hP]
        obtain ⟨h1, h2, h3⟩ := ih (idx + 1)
          (addError (addWarnings r0 (qualityWarnings payload (idx + 1)))
            listing (errToStr e) (idx + 1))
        rw [hloop, hout]
        refine ⟨?_, ?_, h3⟩
        · rw [h1, totalCount_addError, totalCount_addWarnings]
          simp
          omega
        · rw [h2]
          rfl
      | ok processed =>
        have hloop : enrichLoop er d (listing :: rest) idx r0 =
            ((processed.filter (fun kv => ¬ isNoneVal kv.2)) ::
              (enrichLoop er d rest (idx + 1)
                (addSuccess (addWarnings r0 (qualityWarnings payload (idx + 1)))
                  (processed.filter (fun kv => ¬ isNoneVal kv.2)) (idx + 1))).1,
             (enrichLoop er d rest (idx + 1)
                (addSuccess (addWarnings r0 (qualityWarnings payload (idx + 1)))
                  (processed.filter (fun kv => ¬ isNoneVal kv.2)) (idx + 1))).2) := by
          simp only [enrichLoop, hN, hP]
        have hout : successOutcomes er d (listing :: rest) idx =
            (processed.filter (fun kv => ¬ isNoneVal kv.2)) ::
              successOutcomes er d rest (idx + 1) := by
          simp only [successOutcomes, recordOutcome, hN, hP]
        obtain ⟨h1, h2, h3⟩ := ih (idx + 1)
          (addSuccess (addWarnings r0 (qualityWarnings payload (idx + 1)))
            (processed.filter (fun kv => ¬ isNoneVal kv.2)) (idx + 1))
        rw [hloop, hout]
        refine ⟨?_, ?_, ?_⟩
        · simp only []
          rw [h1, totalCount_addSuccess, totalCount_addWarnings]
          simp
          omega
        · simp only []
          rw [h2, addSuccess, addWarnings]
          simp
        · simp only []
          rw [h3]

/-- Claim C9: in import mode with a result tracker, every processed record
lands in exactly one of the success and failure tallies (their sum is the
number of input records, so a failing record does not stop the remaining
records from being processed); the enriched output is exactly the list of
per-record successful outcomes in order, and equals the payloads recorded
as successes; and the report's success rate is `successful / total * 100`,
with `0` when no records were processed. -/
theorem enrich_isolation_counts_rate :
    ∀ (er : EnricherRec) (d : ImportDefaultsRec)
      (listings : List (List (Str × Val))),
    totalCount (enrich er listings d).2 = listings.length ∧
    (enrich er listings d).2.successful.map Prod.fst = (enrich er listings d).1 ∧
    (enrich er listings d).1 = successOutcomes er d listings 0 ∧
    successRate (enrich er listings d).2 =
      (if listings.length = 0 then 0
       else (((enrich er listings d).2.successful.length : ℚ) /
         (listings.length : ℚ)) * 100) := by
  intro er d listings
  obtain ⟨h1, h2, h3⟩ := enrichLoop_counts er d listings 0 emptyImportResult
  have h1' : totalCount (enrich er listings d).2 = listings.length := by
    simp only [enrich]
    rw [h1]
    simp [emptyImportResult, totalCount]
  refine ⟨h1', ?_, h3, ?_⟩
  · simp only [enrich]
    rw [h2]
    simp [emptyImportResult]
  · rw [successRate, h1']

end MegaDirectory
